import Mathlib

/-! # The magnetometer model of `sensors_model.c`

A shallow embedding of the geomagnetic table lookup (`get_lookup_table_index`,
`get_table_data`), of the Earth field model (`calc_mag_field`) and of the
magnetometer adapter (`init_mag`, `update_mag`).

Conventions of the embedding:

* C `float` and `double` values are idealised as elements of a linearly ordered
  field `K` with a floor function; the rounding of arithmetic results is not
  modelled.  The definitions are executable at `K = ℚ`, and can be read at `K = ℝ`.
* The one place where a `double` is narrowed to `float` before a comparison, the
  calls `get_mag_*(lat, lon)` in `calc_mag_field`, is modelled by `double_to_float`,
  the binary32 rounding to nearest with ties to even.
* The cast `(int) x` is truncation toward zero (`int_cast`).
* `unsigned` values are naturals below `2 ^ 32`; the conversion from `int` and the
  additions `index + 1` reduce modulo `2 ^ 32`.
* A read `table[r][c]` outside the `13 x 37` grid is an error: `table_read` returns
  `none` there, and so does every function that performs such a read.
* `zero_mean_noise` draws from a generator; it is modelled as a function that
  takes and returns the generator state.
-/

namespace SensorsModel

/-! ## Constants -/

section Constants

variable {K : Type} [LinearOrderedField K]

/-- The macro `SAMPLING_RES`, 10.0: the sampling resolution in degrees. -/
def SAMPLING_RES : K := 10.0

/-- The macro `SAMPLING_MIN_LAT`, -60.0. -/
def SAMPLING_MIN_LAT : K := -60.0

/-- The macro `SAMPLING_MAX_LAT`, 60.0. -/
def SAMPLING_MAX_LAT : K := 60.0

/-- The macro `SAMPLING_MIN_LON`, -180.0. -/
def SAMPLING_MIN_LON : K := -180.0

/-- The macro `SAMPLING_MAX_LON`, 180.0. -/
def SAMPLING_MAX_LON : K := 180.0

/-- The macro `HOME_LAT` of quad_parameters.h, 47.397742. -/
def HOME_LAT : K := 47.397742

/-- The macro `HOME_LON` of quad_parameters.h, 8.545594. -/
def HOME_LON : K := 8.545594

/-- The macro `NOISE` of quad_parameters.h, 0: noise is disabled. -/
def NOISE : ℤ := 0

end Constants

/-! ## Tables -/

/-- The C type `int [13][37]` of the three lookup tables. -/
abbrev Table := Fin 13 → Fin 37 → ℤ

/-- The table that a C initialiser denotes, from the list of its rows; an entry
that the initialiser does not give is 0, as in C. -/
def Table.ofRows (rows : List (List ℤ)) : Table :=
  fun i j => (rows.getD i.val []).getD j.val 0

/-- Declination data in degrees (`declination_table`, lines 35-49). -/
def declination_table : Table :=
  Table.ofRows [
   [47,46,45,43,42,41,39,37,33,29,23,16,10,4,-1,-6,-10,-15,-20,-27,-34,-42,-49,-56,-62,-67,-72,-74,-75,-73,-61,-22,26,42,47,48,47],
   [31,31,31,30,30,30,30,29,27,24,18,11,3,-4,-9,-13,-15,-18,-21,-27,-33,-40,-47,-52,-56,-57,-56,-52,-44,-30,-14,2,14,22,27,30,31],
   [22,23,23,23,22,22,22,23,22,19,13,5,-4,-12,-17,-20,-22,-22,-23,-25,-30,-36,-41,-45,-46,-44,-39,-31,-21,-11,-3,4,10,15,19,21,22],
   [17,17,17,18,17,17,17,17,16,13,8,-1,-10,-18,-22,-25,-26,-25,-22,-20,-21,-25,-29,-32,-31,-28,-23,-16,-9,-3,0,4,7,11,14,16,17],
   [13,13,14,14,14,13,13,12,11,9,3,-5,-14,-20,-24,-25,-24,-21,-17,-12,-9,-11,-14,-17,-18,-16,-12,-8,-3,-0,1,3,6,8,11,12,13],
   [11,11,11,11,11,10,10,10,9,6,-0,-8,-15,-21,-23,-22,-19,-15,-10,-5,-2,-2,-4,-7,-9,-8,-7,-4,-1,1,1,2,4,7,9,10,11],
   [10,9,9,9,9,9,9,8,7,3,-3,-10,-16,-20,-20,-18,-14,-9,-5,-2,1,2,0,-2,-4,-4,-3,-2,-0,0,0,1,3,5,7,9,10],
   [9,9,9,9,9,9,9,8,6,1,-4,-11,-16,-18,-17,-14,-10,-5,-2,-0,2,3,2,0,-1,-2,-2,-1,-0,-1,-1,-1,1,3,6,8,9],
   [8,9,9,10,10,10,10,8,5,0,-6,-12,-15,-16,-15,-11,-7,-4,-1,1,3,4,3,2,1,0,-0,-0,-1,-2,-3,-4,-2,0,3,6,8],
   [7,9,10,11,12,12,12,9,5,-1,-7,-13,-15,-15,-13,-10,-6,-3,0,2,3,4,4,4,3,2,1,0,-1,-3,-5,-6,-6,-3,0,4,7],
   [5,8,11,13,14,15,14,11,5,-2,-9,-15,-17,-16,-13,-10,-6,-3,0,3,4,5,6,6,6,5,4,2,-1,-5,-8,-9,-9,-6,-3,1,5],
   [3,8,11,15,17,17,16,12,5,-4,-12,-18,-19,-18,-16,-12,-8,-4,-0,3,5,7,9,10,10,9,7,4,-1,-6,-10,-12,-12,-9,-5,-1,3],
   [3,8,12,16,19,20,18,13,4,-8,-18,-24,-25,-23,-20,-16,-11,-6,-1,3,7,11,14,16,17,17,14,8,-0,-8,-13,-15,-14,-11,-7,-2,3]
  ]

/-- Inclination data in degrees (`inclination_table`, lines 52-66). -/
def inclination_table : Table :=
  Table.ofRows [
   [-78,-76,-74,-72,-70,-68,-65,-63,-60,-57,-55,-54,-54,-55,-56,-57,-58,-59,-59,-59,-59,-60,-61,-63,-66,-69,-73,-76,-79,-83,-86,-87,-86,-84,-82,-80,-78],
   [-72,-70,-68,-66,-64,-62,-60,-57,-54,-51,-49,-48,-49,-51,-55,-58,-60,-61,-61,-61,-60,-60,-61,-63,-66,-69,-72,-76,-78,-80,-81,-80,-79,-77,-76,-74,-72],
   [-64,-62,-60,-59,-57,-55,-53,-50,-47,-44,-41,-41,-43,-47,-53,-58,-62,-65,-66,-65,-63,-62,-61,-63,-65,-68,-71,-73,-74,-74,-73,-72,-71,-70,-68,-66,-64],
   [-55,-53,-51,-49,-46,-44,-42,-40,-37,-33,-30,-30,-34,-41,-48,-55,-60,-65,-67,-68,-66,-63,-61,-61,-62,-64,-65,-66,-66,-65,-64,-63,-62,-61,-59,-57,-55],
   [-42,-40,-37,-35,-33,-30,-28,-25,-22,-18,-15,-16,-22,-31,-40,-48,-55,-59,-62,-63,-61,-58,-55,-53,-53,-54,-55,-55,-54,-53,-51,-51,-50,-49,-47,-45,-42],
   [-25,-22,-20,-17,-15,-12,-10,-7,-3,1,3,2,-5,-16,-27,-37,-44,-48,-50,-50,-48,-44,-41,-38,-38,-38,-39,-39,-38,-37,-36,-35,-35,-34,-31,-28,-25],
   [-5,-2,1,3,5,8,10,13,16,20,21,19,12,2,-10,-20,-27,-30,-30,-29,-27,-23,-19,-17,-17,-17,-18,-18,-17,-16,-16,-16,-16,-15,-12,-9,-5],
   [15,18,21,22,24,26,29,31,34,36,37,34,28,20,10,2,-3,-5,-5,-4,-2,2,5,7,8,7,7,6,7,7,7,6,5,6,8,11,15],
   [31,34,36,38,39,41,43,46,48,49,49,46,42,36,29,24,20,19,20,21,23,25,28,30,30,30,29,29,29,29,28,27,25,25,26,28,31],
   [43,45,47,49,51,53,55,57,58,59,59,56,53,49,45,42,40,40,40,41,43,44,46,47,47,47,47,47,47,47,46,44,42,41,40,42,43],
   [53,54,56,57,59,61,64,66,67,68,67,65,62,60,57,55,55,54,55,56,57,58,59,59,60,60,60,60,60,60,59,57,55,53,52,52,53],
   [62,63,64,65,67,69,71,73,75,75,74,73,70,68,67,66,65,65,65,66,66,67,68,68,69,70,70,71,71,70,69,67,65,63,62,62,62],
   [71,71,72,73,75,77,78,80,81,81,80,79,77,76,74,73,73,73,73,73,73,74,74,75,76,77,78,78,78,78,77,75,73,72,71,71,71]
  ]

/-- Strength data in centi-Tesla (`strength_table`, lines 69-83). -/
def strength_table : Table :=
  Table.ofRows [
   [62,60,58,56,54,52,49,46,43,41,38,36,34,32,31,31,30,30,30,31,33,35,38,42,46,51,55,59,62,64,66,67,67,66,65,64,62],
   [59,56,54,52,50,47,44,41,38,35,32,29,28,27,26,26,26,25,25,26,28,30,34,39,44,49,54,58,61,64,65,66,65,64,63,61,59],
   [54,52,49,47,45,42,40,37,34,30,27,25,24,24,24,24,24,24,24,24,25,28,32,37,42,48,52,56,59,61,62,62,62,60,59,56,54],
   [49,47,44,42,40,37,35,33,30,28,25,23,22,23,23,24,25,25,26,26,26,28,31,36,41,46,51,54,56,57,57,57,56,55,53,51,49],
   [43,41,39,37,35,33,32,30,28,26,25,23,23,23,24,25,26,28,29,29,29,30,32,36,40,44,48,51,52,52,51,51,50,49,47,45,43],
   [38,36,35,33,32,31,30,29,28,27,26,25,24,24,25,26,28,30,31,32,32,32,33,35,38,42,44,46,47,46,45,45,44,43,41,40,38],
   [34,33,32,32,31,31,31,30,30,30,29,28,27,27,27,28,29,31,32,33,33,33,34,35,37,39,41,42,43,42,41,40,39,38,36,35,34],
   [33,33,32,32,33,33,34,34,35,35,34,33,32,31,30,30,31,32,33,34,35,35,36,37,38,40,41,42,42,41,40,39,37,36,34,33,33],
   [34,34,34,35,36,37,39,40,41,41,40,39,37,35,35,34,35,35,36,37,38,39,40,41,42,43,44,45,45,45,43,41,39,37,35,34,34],
   [37,37,38,39,41,42,44,46,47,47,46,45,43,41,40,39,39,40,41,41,42,43,45,46,47,48,49,50,50,50,48,46,43,41,39,38,37],
   [42,42,43,44,46,48,50,52,53,53,52,51,49,47,45,45,44,44,45,46,46,47,48,50,51,53,54,55,56,55,54,52,49,46,44,43,42],
   [48,48,49,50,52,53,55,56,57,57,56,55,53,51,50,49,48,48,48,49,49,50,51,53,55,56,58,59,60,60,58,56,54,52,50,49,48],
   [54,54,54,55,56,57,58,58,59,58,58,57,56,54,53,52,51,51,51,51,52,53,54,55,57,58,60,61,62,61,61,59,58,56,55,54,54]
  ]

/-- The read `table[r][c]` with `unsigned` indices: `none` outside the grid. -/
def table_read (table : Table) (r c : ℕ) : Option ℤ :=
  if h : r < 13 ∧ c < 37 then some (table ⟨r, h.1⟩ ⟨c, h.2⟩) else none

/-! ## Grid interpolator -/

section Interpolator

variable {K : Type} [LinearOrderedField K] [FloorRing K]

/-- Modelled from the spec: `constrain(value, min, max)` of utils.h, which is not
among the sources; the spec says it "clamps to range, inclusive". -/
def constrain (val lo hi : K) : K :=
  if val < lo then lo else if hi < val then hi else val

/-- The conversion `(int) x` of a floating value: truncation toward zero. -/
def int_cast (x : K) : ℤ :=
  if 0 ≤ x then ⌊x⌋ else ⌈x⌉

/-- The conversion of an `int` to `unsigned` (32 bits). -/
def to_unsigned (z : ℤ) : ℕ :=
  (z % 2 ^ 32).toNat

/-- The function `get_lookup_table_index(float *val, float min, float max)`, lines 85-92.
The result is the returned index together with the value left in `*val`. -/
def get_lookup_table_index (val min max : K) : ℤ × K :=
  let val1 := constrain val min (max - SAMPLING_RES)
  (int_cast ((-(min) + val1) / SAMPLING_RES), val1)

/-- Lines 107 and 111 of `get_table_data`: the latitude rounded with the integer
cast, then the call `get_lookup_table_index(&min_lat, SAMPLING_MIN_LAT,
SAMPLING_MAX_LAT)`.  The first component is the index returned, the second the
value of `min_lat` after the call. -/
def min_lat_cell (lat : K) : ℤ × K :=
  get_lookup_table_index (((int_cast (lat / SAMPLING_RES) : ℤ) : K) * SAMPLING_RES)
    SAMPLING_MIN_LAT SAMPLING_MAX_LAT

/-- Lines 108 and 112 of `get_table_data`: the same for the longitude. -/
def min_lon_cell (lon : K) : ℤ × K :=
  get_lookup_table_index (((int_cast (lon / SAMPLING_RES) : ℤ) : K) * SAMPLING_RES)
    SAMPLING_MIN_LON SAMPLING_MAX_LON

/-- The `unsigned min_lat_index` of `get_table_data`. -/
def min_lat_index (lat : K) : ℕ :=
  to_unsigned (min_lat_cell lat).1

/-- The `unsigned min_lon_index` of `get_table_data`. -/
def min_lon_index (lon : K) : ℕ :=
  to_unsigned (min_lon_cell lon).1

/-- The `lat_scale` of `get_table_data`, line 120. -/
def lat_scale (lat : K) : K :=
  constrain ((lat - (min_lat_cell lat).2) / SAMPLING_RES) 0.0 1.0

/-- The `lon_scale` of `get_table_data`, line 121. -/
def lon_scale (lon : K) : K :=
  constrain ((lon - (min_lon_cell lon).2) / SAMPLING_RES) 0.0 1.0

/-- Lines 123-126 of `get_table_data`: the blend of the four corner samples. -/
def blend (lat_scale lon_scale data_sw data_se data_ne data_nw : K) : K :=
  let data_min := lon_scale * (data_se - data_sw) + data_sw
  let data_max := lon_scale * (data_ne - data_nw) + data_nw
  lat_scale * (data_max - data_min) + data_min

/-- The function `get_table_data(float lat, float lon, int table[13][37])`, lines
94-127. -/
def get_table_data (lat lon : K) (table : Table) : Option K :=
  if lat < -90.0 ∨ lat > 90.0 ∨ lon < -180.0 ∨ lon > 180.0 then
    some 0.0
  else
    match table_read table (min_lat_index lat) (min_lon_index lon),
          table_read table (min_lat_index lat) ((min_lon_index lon + 1) % 2 ^ 32),
          table_read table ((min_lat_index lat + 1) % 2 ^ 32) ((min_lon_index lon + 1) % 2 ^ 32),
          table_read table ((min_lat_index lat + 1) % 2 ^ 32) (min_lon_index lon) with
    | some data_sw, some data_se, some data_ne, some data_nw =>
        some (blend (lat_scale lat) (lon_scale lon) (data_sw : K) (data_se : K)
          (data_ne : K) (data_nw : K))
    | _, _, _, _ => none

/-- The function `get_mag_declination`, lines 129-132. -/
def get_mag_declination (lat lon : K) : Option K :=
  get_table_data lat lon declination_table

/-- The function `get_mag_inclination`, lines 134-137. -/
def get_mag_inclination (lat lon : K) : Option K :=
  get_table_data lat lon inclination_table

/-- The function `get_mag_strength`, lines 139-142. -/
def get_mag_strength (lat lon : K) : Option K :=
  get_table_data lat lon strength_table

/-- The floor-based row index of the spec's words, `floor((lat + 60) / 10)`; it is
written from the claim and not from the code. -/
def floor_lat_index (lat : K) : ℤ :=
  ⌊(lat + 60) / 10⌋

/-- The floor-based column index of the spec's words, `floor((lon + 180) / 10)`; it
is written from the claim and not from the code. -/
def floor_lon_index (lon : K) : ℤ :=
  ⌊(lon + 180) / 10⌋

end Interpolator

/-! ## Earth field model and magnetometer adapter -/

/-- The functions of `<math.h>` and of utils.h that `calc_mag_field` and `init_mag`
call, and the constant `M_PI`.  They are not among the sources and are taken as
parameters. -/
structure MathLib (K : Type) where
  M_PI : K
  cos : K → K
  sin : K → K
  tan : K → K
  deg2rad : K → K

/-- The `MagSensor` structure (sensors_model.h), as `init_mag` and `update_mag`
use it. -/
structure MagSensor (K : Type) where
  mag_field : Fin 3 → K
  mag_noise_std_dev : K

/-- Modelled from the spec: `deg2rad` of utils.h is not among the sources; the spec
calls it the standard degree/radian conversion, `x * π / 180`.  The predicate says
that `m` holds this conversion together with the real `cos`, `sin`, `tan` and the
constant π. -/
def IsRealMathLib (m : MathLib ℝ) : Prop :=
  m.M_PI = Real.pi ∧ m.cos = Real.cos ∧ m.sin = Real.sin ∧ m.tan = Real.tan ∧
    ∀ x : ℝ, m.deg2rad x = x * Real.pi / 180

section Magnetometer

variable {K : Type} [LinearOrderedField K] [FloorRing K]

/-- The macro `HOME_YAW` of quad_parameters.h, `0.0*M_PI/180.0`. -/
def HOME_YAW (m : MathLib K) : K := 0.0 * m.M_PI / 180.0

/-- Modelled from the spec: `earth_to_body_rotation` of utils.h, which is not among
the sources; the spec gives it as `body = DCM · earth_vector`, the standard
matrix-vector product. -/
def earth_to_body_rotation (dcm : Fin 3 → Fin 3 → K) (vec_e : Fin 3 → K) : Fin 3 → K :=
  fun i => dcm i 0 * vec_e 0 + dcm i 1 * vec_e 1 + dcm i 2 * vec_e 2

/-- The Earth-frame vector `mag_e` of `calc_mag_field`, lines 245-255, from the
three looked-up values (declination and inclination in degrees, strength). -/
def mag_e (m : MathLib K) (declination inclination strength : K) : Fin 3 → K :=
  let declination_rad := m.deg2rad declination
  let inclination_rad := m.deg2rad inclination
  let strength_ga := 0.01 * strength
  let H := strength_ga * m.cos inclination_rad
  ![H * m.cos declination_rad, H * m.sin declination_rad, H * m.tan inclination_rad]

/-- Rounding to the nearest integer, ties to the even one. -/
def round_half_even (y : K) : ℤ :=
  if y - (⌊y⌋ : K) < 1 / 2 then ⌊y⌋
  else if 1 / 2 < y - (⌊y⌋ : K) then ⌊y⌋ + 1
  else if ⌊y⌋ % 2 = 0 then ⌊y⌋ else ⌊y⌋ + 1

/-- The binary exponent of a binary32 value near `x`: `⌊log2 |x|⌋`, and -126 in the
subnormal range. -/
def float_exponent (x : K) : ℤ :=
  max (-126) (Int.log 2 |x|)

/-- The conversion of a `double` argument to a `float` parameter (IEEE binary32, 24
bits of significand, round to nearest, ties to even).  A value beyond the binary32
range, which C turns into an infinity, stays a value beyond every range bound of
`get_table_data`, whose guard treats both alike. -/
def double_to_float (x : K) : K :=
  (round_half_even (x / 2 ^ (float_exponent x - 23)) : K) * 2 ^ (float_exponent x - 23)

/-- The function `calc_mag_field(lat, lon, dcm_be, mag_field)`, lines 239-259; the
result is the vector written to `mag_field`.  The parameters `lat` and `lon` are
`double` and the three lookups take `float` (prototypes on lines 22-24), so each call
narrows them. -/
def calc_mag_field (m : MathLib K) (lat lon : K) (dcm_be : Fin 3 → Fin 3 → K) :
    Option (Fin 3 → K) :=
  match get_mag_declination (double_to_float lat) (double_to_float lon),
        get_mag_inclination (double_to_float lat) (double_to_float lon),
        get_mag_strength (double_to_float lat) (double_to_float lon) with
  | some declination, some inclination, some strength =>
      some (earth_to_body_rotation dcm_be (mag_e m declination inclination strength))
  | _, _, _ => none

/-- The DCM that `init_mag` builds, lines 216-224. -/
def home_dcm (m : MathLib K) : Fin 3 → Fin 3 → K :=
  ![![m.cos (HOME_YAW m), m.sin (HOME_YAW m), 0],
    ![-m.sin (HOME_YAW m), m.cos (HOME_YAW m), 0],
    ![0, 0, 1]]

/-- The function `init_mag(mag, mag_noise_std_dev)`, lines 211-228. -/
def init_mag (m : MathLib K) (mag : MagSensor K) (mag_noise_std_dev : K) :
    Option (MagSensor K) :=
  let mag1 : MagSensor K := { mag with mag_noise_std_dev := mag_noise_std_dev }
  match calc_mag_field m HOME_LAT HOME_LON (home_dcm m) with
  | some field => some { mag1 with mag_field := field }
  | none => none

/-- The term `((NOISE != 0) ? zero_mean_noise(std_dev) : 0)` of `update_mag`; `G` is
the state of the noise generator. -/
def noise_term {G : Type} (zero_mean_noise : K → G → K × G) (std_dev : K) (g : G) : K × G :=
  if NOISE ≠ 0 then zero_mean_noise std_dev g else (0, g)

/-- The function `update_mag(mag, lat, lon, dcm_be)`, lines 230-237. -/
def update_mag {G : Type} (m : MathLib K) (zero_mean_noise : K → G → K × G) (g : G)
    (mag : MagSensor K) (lat lon : K) (dcm_be : Fin 3 → Fin 3 → K) :
    Option (MagSensor K × G) :=
  match calc_mag_field m lat lon dcm_be with
  | none => none
  | some field =>
      let n0 := noise_term zero_mean_noise mag.mag_noise_std_dev g
      let n1 := noise_term zero_mean_noise mag.mag_noise_std_dev n0.2
      let n2 := noise_term zero_mean_noise mag.mag_noise_std_dev n1.2
      some ({ mag with mag_field := ![field 0 + n0.1, field 1 + n1.1, field 2 + n2.1] }, n2.2)

end Magnetometer

/-! ## Lemmas on the helpers -/

section ClampLemmas

variable {K : Type} [LinearOrderedField K]

theorem constrain_of_lt {val lo hi : K} (h : val < lo) : constrain val lo hi = lo := by
  simp [constrain, h]

theorem constrain_of_gt {val lo hi : K} (h1 : lo ≤ val) (h2 : hi < val) :
    constrain val lo hi = hi := by
  simp [constrain, not_lt.mpr h1, h2]

theorem constrain_of_mem {val lo hi : K} (h1 : lo ≤ val) (h2 : val ≤ hi) :
    constrain val lo hi = val := by
  simp [constrain, not_lt.mpr h1, not_lt.mpr h2]

theorem constrain_of_le_lo {val lo hi : K} (h : val ≤ lo) (hlh : lo ≤ hi) :
    constrain val lo hi = lo := by
  rcases h.lt_or_eq with h | h
  · exact constrain_of_lt h
  · subst h; exact constrain_of_mem le_rfl hlh

theorem constrain_of_ge_hi {val lo hi : K} (h : hi ≤ val) (hlh : lo ≤ hi) :
    constrain val lo hi = hi := by
  rcases h.lt_or_eq with h | h
  · exact constrain_of_gt (hlh.trans h.le) h
  · subst h; exact constrain_of_mem hlh le_rfl

theorem constrain_mem {val lo hi : K} (hlh : lo ≤ hi) :
    lo ≤ constrain val lo hi ∧ constrain val lo hi ≤ hi := by
  unfold constrain
  split_ifs with h1 h2
  · exact ⟨le_rfl, hlh⟩
  · exact ⟨hlh, le_rfl⟩
  · exact ⟨not_lt.mp h1, not_lt.mp h2⟩

theorem range_guard_false {lat lon : K} (hlat : -90 ≤ lat ∧ lat ≤ 90)
    (hlon : -180 ≤ lon ∧ lon ≤ 180) :
    ¬ (lat < -90.0 ∨ lat > 90.0 ∨ lon < -180.0 ∨ lon > 180.0) := by
  norm_num
  exact ⟨hlat.1, hlat.2, hlon.1, hlon.2⟩

/-- One interpolation step `s * (b - a) + a` with `0 ≤ s ≤ 1` stays between its two
end values. -/
theorem lerp_between {s a b : K} (h0 : 0 ≤ s) (h1 : s ≤ 1) :
    min a b ≤ s * (b - a) + a ∧ s * (b - a) + a ≤ max a b := by
  rcases le_total a b with h | h
  · rw [min_eq_left h, max_eq_right h]
    constructor <;> nlinarith
  · rw [min_eq_right h, max_eq_left h]
    constructor <;> nlinarith

/-- With both scales in `[0, 1]` the blend stays between the least and the greatest
of the four corner values. -/
theorem blend_between (ls lo sw se ne nw : K) (hls : 0 ≤ ls ∧ ls ≤ 1)
    (hlo : 0 ≤ lo ∧ lo ≤ 1) :
    min (min sw se) (min ne nw) ≤ blend ls lo sw se ne nw ∧
      blend ls lo sw se ne nw ≤ max (max sw se) (max ne nw) := by
  have hA := lerp_between (a := sw) (b := se) hlo.1 hlo.2
  have hB := lerp_between (a := nw) (b := ne) hlo.1 hlo.2
  have hC := lerp_between (a := lo * (se - sw) + sw) (b := lo * (ne - nw) + nw) hls.1 hls.2
  rw [min_comm nw ne, max_comm nw ne] at hB
  unfold blend
  constructor
  · exact le_trans (le_min ((min_le_left _ _).trans hA.1) ((min_le_right _ _).trans hB.1)) hC.1
  · exact le_trans hC.2 (max_le (hA.2.trans (le_max_left _ _)) (hB.2.trans (le_max_right _ _)))

theorem blend_zero_zero (sw se ne nw : K) : blend 0 0 sw se ne nw = sw := by
  unfold blend; ring

theorem blend_zero_one (sw se ne nw : K) : blend 0 1 sw se ne nw = se := by
  unfold blend; ring

theorem blend_one_zero (sw se ne nw : K) : blend 1 0 sw se ne nw = nw := by
  unfold blend; ring

theorem blend_one_one (sw se ne nw : K) : blend 1 1 sw se ne nw = ne := by
  unfold blend; ring

theorem blend_zero_left (lo sw se ne nw : K) :
    blend 0 lo sw se ne nw = lo * (se - sw) + sw := by
  unfold blend; ring

theorem blend_one_left (lo sw se ne nw : K) :
    blend 1 lo sw se ne nw = lo * (ne - nw) + nw := by
  unfold blend; ring

theorem not_int_div_ten {x : K} (hx : ∀ z : ℤ, x ≠ 10 * (z : K)) :
    ∀ z : ℤ, x / 10 ≠ (z : K) := by
  intro z h
  apply hx z
  rw [← h]
  ring

theorem blend_right_zero (ls sw se ne nw : K) :
    blend ls 0 sw se ne nw = ls * (nw - sw) + sw := by
  unfold blend; ring

theorem blend_right_one (ls sw se ne nw : K) :
    blend ls 1 sw se ne nw = ls * (ne - se) + se := by
  unfold blend; ring

end ClampLemmas

section Lemmas

variable {K : Type} [LinearOrderedField K] [FloorRing K]

theorem int_cast_intCast (z : ℤ) : int_cast ((z : ℤ) : K) = z := by
  unfold int_cast
  split_ifs <;> simp

theorem int_cast_of_nonneg {x : K} (h : 0 ≤ x) : int_cast x = ⌊x⌋ := by
  simp [int_cast, h]

theorem int_cast_of_nonpos {x : K} (h : x ≤ 0) : int_cast x = ⌈x⌉ := by
  rcases h.lt_or_eq with h | h
  · simp [int_cast, not_le.mpr h]
  · subst h; simp [int_cast]

theorem to_unsigned_of_nonneg {z : ℤ} (h0 : 0 ≤ z) (h1 : z < 2 ^ 32) :
    to_unsigned z = z.toNat := by
  unfold to_unsigned
  rw [Int.emod_eq_of_lt h0 h1]

/-- On a multiple of the resolution, between table bounds that are multiples of the
resolution, `get_lookup_table_index` clamps the multiple and returns its offset
from the lower bound. -/
theorem get_lookup_table_index_grid (t a b : ℤ) (hab : a + 1 ≤ b) :
    get_lookup_table_index (((t : ℤ) : K) * 10) (((a : ℤ) : K) * 10) (((b : ℤ) : K) * 10)
      = (max a (min (b - 1) t) - a, ((max a (min (b - 1) t) : ℤ) : K) * 10) := by
  have hc : constrain (((t : ℤ) : K) * 10) (((a : ℤ) : K) * 10)
      (((b : ℤ) : K) * 10 - SAMPLING_RES) = ((max a (min (b - 1) t) : ℤ) : K) * 10 := by
    have hres : ((b : ℤ) : K) * 10 - SAMPLING_RES = (((b - 1 : ℤ) : ℤ) : K) * 10 := by
      simp only [SAMPLING_RES]; push_cast; norm_num; ring
    rw [hres]
    rcases lt_or_le t a with h | h
    · rw [constrain_of_lt (by exact_mod_cast (mul_lt_mul_of_pos_right
        (Int.cast_lt.mpr h) (by norm_num : (0 : K) < 10)))]
      have : max a (min (b - 1) t) = a := by omega
      rw [this]
    · rcases le_or_lt t (b - 1) with h' | h'
      · have : max a (min (b - 1) t) = t := by omega
        rw [this]
        apply constrain_of_mem
        · exact mul_le_mul_of_nonneg_right (Int.cast_le.mpr h) (by norm_num)
        · exact mul_le_mul_of_nonneg_right (Int.cast_le.mpr h') (by norm_num)
      · have : max a (min (b - 1) t) = b - 1 := by omega
        rw [this]
        apply constrain_of_gt
        · exact mul_le_mul_of_nonneg_right (Int.cast_le.mpr h) (by norm_num)
        · exact mul_lt_mul_of_pos_right (Int.cast_lt.mpr h') (by norm_num)
  unfold get_lookup_table_index
  simp only [hc]
  congr 1
  have : (-(((a : ℤ) : K) * 10) + ((max a (min (b - 1) t) : ℤ) : K) * 10) / SAMPLING_RES
      = (((max a (min (b - 1) t) - a : ℤ) : ℤ) : K) := by
    simp only [SAMPLING_RES]; push_cast; norm_num; ring
  rw [this, int_cast_intCast]

/-- The value of `min_lat` after the index call is ten times the clamped
truncated latitude band, and the index is that band counted from row 0. -/
theorem min_lat_cell_eq (lat : K) :
    min_lat_cell lat = (max (-6) (min 5 (int_cast (lat / 10))) + 6,
      ((max (-6) (min 5 (int_cast (lat / 10))) : ℤ) : K) * 10) := by
  have h := get_lookup_table_index_grid (K := K) (int_cast (lat / 10)) (-6) 6 (by norm_num)
  have e1 : (((-6 : ℤ) : ℤ) : K) * 10 = SAMPLING_MIN_LAT := by
    simp only [SAMPLING_MIN_LAT]; push_cast; norm_num
  have e2 : (((6 : ℤ) : ℤ) : K) * 10 = SAMPLING_MAX_LAT := by
    simp only [SAMPLING_MAX_LAT]; push_cast; norm_num
  have e3 : (SAMPLING_RES : K) = 10 := by simp only [SAMPLING_RES]; norm_num
  rw [e1, e2] at h
  unfold min_lat_cell
  rw [e3, h]
  norm_num

/-- The same for the longitude: bands -18 .. 17, counted from column 0. -/
theorem min_lon_cell_eq (lon : K) :
    min_lon_cell lon = (max (-18) (min 17 (int_cast (lon / 10))) + 18,
      ((max (-18) (min 17 (int_cast (lon / 10))) : ℤ) : K) * 10) := by
  have h := get_lookup_table_index_grid (K := K) (int_cast (lon / 10)) (-18) 18 (by norm_num)
  have e1 : (((-18 : ℤ) : ℤ) : K) * 10 = SAMPLING_MIN_LON := by
    simp only [SAMPLING_MIN_LON]; push_cast; norm_num
  have e2 : (((18 : ℤ) : ℤ) : K) * 10 = SAMPLING_MAX_LON := by
    simp only [SAMPLING_MAX_LON]; push_cast; norm_num
  have e3 : (SAMPLING_RES : K) = 10 := by simp only [SAMPLING_RES]; norm_num
  rw [e1, e2] at h
  unfold min_lon_cell
  rw [e3, h]
  norm_num

theorem min_lat_index_eq (lat : K) :
    min_lat_index lat = (max (-6) (min 5 (int_cast (lat / 10))) + 6).toNat := by
  unfold min_lat_index
  rw [min_lat_cell_eq]
  exact to_unsigned_of_nonneg (by omega) (by omega)

theorem min_lon_index_eq (lon : K) :
    min_lon_index lon = (max (-18) (min 17 (int_cast (lon / 10))) + 18).toNat := by
  unfold min_lon_index
  rw [min_lon_cell_eq]
  exact to_unsigned_of_nonneg (by omega) (by omega)

theorem min_lat_index_le (lat : K) : min_lat_index lat ≤ 11 := by
  rw [min_lat_index_eq]; omega

theorem min_lon_index_le (lon : K) : min_lon_index lon ≤ 35 := by
  rw [min_lon_index_eq]; omega

theorem lat_scale_eq (lat : K) :
    lat_scale lat
      = constrain ((lat - ((max (-6) (min 5 (int_cast (lat / 10))) : ℤ) : K) * 10) / 10) 0 1 := by
  unfold lat_scale
  rw [min_lat_cell_eq]
  simp only [SAMPLING_RES]
  norm_num

theorem lon_scale_eq (lon : K) :
    lon_scale lon
      = constrain ((lon - ((max (-18) (min 17 (int_cast (lon / 10))) : ℤ) : K) * 10) / 10) 0 1 := by
  unfold lon_scale
  rw [min_lon_cell_eq]
  simp only [SAMPLING_RES]
  norm_num

theorem table_read_of_lt (table : Table) {r c : ℕ} (hr : r < 13) (hc : c < 37) :
    table_read table r c = some (table ⟨r, hr⟩ ⟨c, hc⟩) := by
  simp [table_read, hr, hc]

/-- The guard of lines 101-104: outside the geodetic range the result is 0. -/
theorem get_table_data_zero_fallback (lat lon : K) (table : Table)
    (h : lat < -90 ∨ lat > 90 ∨ lon < -180 ∨ lon > 180) :
    get_table_data lat lon table = some 0 := by
  have h' : lat < -90.0 ∨ lat > 90.0 ∨ lon < -180.0 ∨ lon > 180.0 := by
    norm_num
    exact h
  unfold get_table_data
  rw [if_pos h']
  norm_num

/-- Inside the geodetic range `get_table_data` is the blend of the four samples
around the cell `(r, c)` that the two index computations select. -/
theorem get_table_data_in_range (lat lon : K) (table : Table)
    (hlat : -90 ≤ lat ∧ lat ≤ 90) (hlon : -180 ≤ lon ∧ lon ≤ 180) {r c : ℕ}
    (hr : min_lat_index lat = r) (hc : min_lon_index lon = c) (hr12 : r < 12) (hc36 : c < 36) :
    get_table_data lat lon table = some (blend (lat_scale lat) (lon_scale lon)
      ((table ⟨r, by omega⟩ ⟨c, by omega⟩ : ℤ) : K)
      ((table ⟨r, by omega⟩ ⟨c + 1, by omega⟩ : ℤ) : K)
      ((table ⟨r + 1, by omega⟩ ⟨c + 1, by omega⟩ : ℤ) : K)
      ((table ⟨r + 1, by omega⟩ ⟨c, by omega⟩ : ℤ) : K)) := by
  subst hr
  subst hc
  have e1 : (min_lat_index lat + 1) % 2 ^ 32 = min_lat_index lat + 1 :=
    Nat.mod_eq_of_lt (by omega)
  have e2 : (min_lon_index lon + 1) % 2 ^ 32 = min_lon_index lon + 1 :=
    Nat.mod_eq_of_lt (by omega)
  unfold get_table_data
  rw [if_neg (range_guard_false hlat hlon), e1, e2,
    table_read_of_lt table (by omega : min_lat_index lat < 13)
      (by omega : min_lon_index lon < 37),
    table_read_of_lt table (by omega : min_lat_index lat < 13)
      (by omega : min_lon_index lon + 1 < 37),
    table_read_of_lt table (by omega : min_lat_index lat + 1 < 13)
      (by omega : min_lon_index lon + 1 < 37),
    table_read_of_lt table (by omega : min_lat_index lat + 1 < 13)
      (by omega : min_lon_index lon < 37)]

/-- At the sample latitude of row `i` the row index is `i`, or 11 for the last row,
and the latitude fraction is 0, or 1 for the last row. -/
theorem lat_sample_point (i : ℕ) (hi : i ≤ 12) :
    min_lat_index (-60 + 10 * (i : K)) = min i 11 ∧
      lat_scale (-60 + 10 * (i : K)) = if i = 12 then 1 else 0 := by
  have hdiv : (-60 + 10 * (i : K)) / 10 = (((i : ℤ) - 6 : ℤ) : K) := by
    push_cast; ring
  rw [min_lat_index_eq, lat_scale_eq, hdiv, int_cast_intCast]
  rcases Nat.lt_or_ge i 12 with h | h
  · have hm : max (-6) (min 5 ((i : ℤ) - 6)) = (i : ℤ) - 6 := by omega
    rw [hm, if_neg (by omega)]
    refine ⟨by omega, ?_⟩
    have h0 : (-60 + 10 * (i : K) - (((i : ℤ) - 6 : ℤ) : K) * 10) / 10 = 0 := by
      push_cast; ring
    rw [h0]
    exact constrain_of_mem le_rfl zero_le_one
  · have hi12 : i = 12 := by omega
    subst hi12
    have hm : max (-6) (min 5 (((12 : ℕ) : ℤ) - 6)) = 5 := by decide
    rw [hm, if_pos rfl]
    refine ⟨by decide, ?_⟩
    have h1 : (-60 + 10 * ((12 : ℕ) : K) - ((5 : ℤ) : K) * 10) / 10 = 1 := by
      push_cast; norm_num
    rw [h1]
    exact constrain_of_mem zero_le_one le_rfl

/-- At the sample longitude of column `j` the column index is `j`, or 35 for the last
column, and the longitude fraction is 0, or 1 for the last column. -/
theorem lon_sample_point (j : ℕ) (hj : j ≤ 36) :
    min_lon_index (-180 + 10 * (j : K)) = min j 35 ∧
      lon_scale (-180 + 10 * (j : K)) = if j = 36 then 1 else 0 := by
  have hdiv : (-180 + 10 * (j : K)) / 10 = (((j : ℤ) - 18 : ℤ) : K) := by
    push_cast; ring
  rw [min_lon_index_eq, lon_scale_eq, hdiv, int_cast_intCast]
  rcases Nat.lt_or_ge j 36 with h | h
  · have hm : max (-18) (min 17 ((j : ℤ) - 18)) = (j : ℤ) - 18 := by omega
    rw [hm, if_neg (by omega)]
    refine ⟨by omega, ?_⟩
    have h0 : (-180 + 10 * (j : K) - (((j : ℤ) - 18 : ℤ) : K) * 10) / 10 = 0 := by
      push_cast; ring
    rw [h0]
    exact constrain_of_mem le_rfl zero_le_one
  · have hj36 : j = 36 := by omega
    subst hj36
    have hm : max (-18) (min 17 (((36 : ℕ) : ℤ) - 18)) = 17 := by decide
    rw [hm, if_pos rfl]
    refine ⟨by decide, ?_⟩
    have h1 : (-180 + 10 * ((36 : ℕ) : K) - ((17 : ℤ) : K) * 10) / 10 = 1 := by
      push_cast; norm_num
    rw [h1]
    exact constrain_of_mem zero_le_one le_rfl

theorem lat_scale_mem (lat : K) : 0 ≤ lat_scale lat ∧ lat_scale lat ≤ 1 := by
  rw [lat_scale_eq]
  exact constrain_mem zero_le_one

theorem lon_scale_mem (lon : K) : 0 ≤ lon_scale lon ∧ lon_scale lon ≤ 1 := by
  rw [lon_scale_eq]
  exact constrain_mem zero_le_one

/-- From latitude 60 upward the cell is the last one (rows 11 and 12) and the
latitude fraction is 1. -/
theorem lat_high {lat : K} (h : 60 ≤ lat) : min_lat_index lat = 11 ∧ lat_scale lat = 1 := by
  have hx : (0 : K) ≤ lat / 10 := by
    apply div_nonneg <;> linarith
  have ht : (6 : ℤ) ≤ int_cast (lat / 10) := by
    rw [int_cast_of_nonneg hx, Int.le_floor]
    push_cast
    rw [le_div_iff₀ (by norm_num)]
    linarith
  have hm : max (-6) (min 5 (int_cast (lat / 10))) = 5 := by omega
  rw [min_lat_index_eq, lat_scale_eq, hm]
  refine ⟨by decide, constrain_of_ge_hi ?_ zero_le_one⟩
  rw [le_div_iff₀ (by norm_num)]
  push_cast
  linarith

/-- Down from latitude -60 the cell is the first one (rows 0 and 1) and the
latitude fraction is 0. -/
theorem lat_low {lat : K} (h : lat ≤ -60) : min_lat_index lat = 0 ∧ lat_scale lat = 0 := by
  have hx : lat / 10 ≤ (0 : K) := by
    apply div_nonpos_of_nonpos_of_nonneg <;> linarith
  have ht : int_cast (lat / 10) ≤ (-6 : ℤ) := by
    rw [int_cast_of_nonpos hx, Int.ceil_le]
    push_cast
    rw [div_le_iff₀ (by norm_num)]
    linarith
  have hm : max (-6) (min 5 (int_cast (lat / 10))) = -6 := by omega
  rw [min_lat_index_eq, lat_scale_eq, hm]
  refine ⟨by decide, constrain_of_le_lo ?_ zero_le_one⟩
  rw [div_le_iff₀ (by norm_num)]
  push_cast
  linarith

/-- Inside the geodetic range the latitude enters `get_table_data` only through
the row index and the latitude fraction. -/
theorem get_table_data_congr_lat {lat lat1 : K} (lon : K) (table : Table)
    (hlat : -90 ≤ lat ∧ lat ≤ 90) (hlat1 : -90 ≤ lat1 ∧ lat1 ≤ 90)
    (hi : min_lat_index lat = min_lat_index lat1) (hs : lat_scale lat = lat_scale lat1) :
    get_table_data lat lon table = get_table_data lat1 lon table := by
  by_cases hlon : -180 ≤ lon ∧ lon ≤ 180
  · unfold get_table_data
    rw [if_neg (range_guard_false hlat hlon), if_neg (range_guard_false hlat1 hlon), hi, hs]
  · have hout : lon < -180 ∨ lon > 180 := by
      by_contra hc
      push_neg at hc
      exact hlon ⟨hc.1, hc.2⟩
    rw [get_table_data_zero_fallback lat lon table (Or.inr (Or.inr hout)),
      get_table_data_zero_fallback lat1 lon table (Or.inr (Or.inr hout))]

/-- At a sample point of the grid the lookup returns the sample. -/
theorem get_table_data_at_sample (table : Table) (i : Fin 13) (j : Fin 37) :
    get_table_data (-60 + 10 * ((i : ℕ) : K)) (-180 + 10 * ((j : ℕ) : K)) table
      = some ((table i j : ℤ) : K) := by
  obtain ⟨i, hi⟩ := i
  obtain ⟨j, hj⟩ := j
  simp only
  have hi0 : (0 : K) ≤ (i : K) := Nat.cast_nonneg i
  have hj0 : (0 : K) ≤ (j : K) := Nat.cast_nonneg j
  have hi12 : (i : K) ≤ 12 := by exact_mod_cast (by omega : i ≤ 12)
  have hj36 : (j : K) ≤ 36 := by exact_mod_cast (by omega : j ≤ 36)
  have hlat : -90 ≤ -60 + 10 * (i : K) ∧ -60 + 10 * (i : K) ≤ 90 := by
    constructor <;> linarith
  have hlon : -180 ≤ -180 + 10 * (j : K) ∧ -180 + 10 * (j : K) ≤ 180 := by
    constructor <;> linarith
  obtain ⟨ri, si⟩ := lat_sample_point (K := K) i (by omega)
  obtain ⟨rj, sj⟩ := lon_sample_point (K := K) j (by omega)
  rcases Nat.lt_or_ge i 12 with h | h <;> rcases Nat.lt_or_ge j 36 with h' | h'
  · rw [min_eq_left (by omega)] at ri rj
    rw [if_neg (by omega)] at si sj
    rw [get_table_data_in_range _ _ table hlat hlon ri rj h h', si, sj, blend_zero_zero]
  · have hj' : j = 36 := by omega
    subst hj'
    rw [min_eq_left (by omega)] at ri
    rw [if_neg (by omega)] at si
    rw [if_pos rfl] at sj
    have rj' : min_lon_index (-180 + 10 * ((36 : ℕ) : K)) = 35 := rj
    rw [get_table_data_in_range _ _ table hlat hlon ri rj' h (by decide), si, sj,
      blend_zero_one]
  · have hi' : i = 12 := by omega
    subst hi'
    rw [min_eq_left (by omega)] at rj
    rw [if_neg (by omega)] at sj
    rw [if_pos rfl] at si
    have ri' : min_lat_index (-60 + 10 * ((12 : ℕ) : K)) = 11 := ri
    rw [get_table_data_in_range _ _ table hlat hlon ri' rj (by decide) h', si, sj,
      blend_one_zero]
  · have hi' : i = 12 := by omega
    have hj' : j = 36 := by omega
    subst hi'
    subst hj'
    rw [if_pos rfl] at si sj
    have ri' : min_lat_index (-60 + 10 * ((12 : ℕ) : K)) = 11 := ri
    have rj' : min_lon_index (-180 + 10 * ((36 : ℕ) : K)) = 35 := rj
    rw [get_table_data_in_range _ _ table hlat hlon ri' rj' (by decide) (by decide), si, sj,
      blend_one_one]

/-- Every call of `get_table_data` returns a value: no read leaves the grid. -/
theorem get_table_data_returns (lat lon : K) (table : Table) :
    ∃ v : K, get_table_data lat lon table = some v := by
  by_cases h : (-90 ≤ lat ∧ lat ≤ 90) ∧ (-180 ≤ lon ∧ lon ≤ 180)
  · have hr := min_lat_index_le lat
    have hc := min_lon_index_le lon
    exact ⟨_, get_table_data_in_range lat lon table h.1 h.2 rfl rfl (by omega) (by omega)⟩
  · refine ⟨0, get_table_data_zero_fallback lat lon table ?_⟩
    by_contra hc
    push_neg at hc
    exact h ⟨⟨hc.1, hc.2.1⟩, hc.2.2.1, hc.2.2.2⟩

/-- South of the equator, inside coverage, the cast leaves `min_lat` at or above
`lat`: the row is the one of the band `⌈lat / 10⌉` and the latitude fraction is
clamped to 0. -/
theorem lat_south {lat : K} (h0 : lat ≤ 0) (h60 : -60 ≤ lat) :
    min_lat_index lat = (⌈lat / 10⌉ + 6).toNat ∧ lat_scale lat = 0 := by
  have hx : lat / 10 ≤ (0 : K) := by
    apply div_nonpos_of_nonpos_of_nonneg <;> linarith
  have ht0 : ⌈lat / 10⌉ ≤ (0 : ℤ) := by
    rw [Int.ceil_le]
    exact_mod_cast hx
  have ht6 : (-6 : ℤ) ≤ ⌈lat / 10⌉ := by
    rw [Int.le_ceil_iff]
    push_cast
    rw [lt_div_iff₀ (by norm_num)]
    linarith
  have hm : max (-6) (min 5 ⌈lat / 10⌉) = ⌈lat / 10⌉ := by omega
  rw [min_lat_index_eq, lat_scale_eq, int_cast_of_nonpos hx, hm]
  refine ⟨rfl, constrain_of_le_lo ?_ zero_le_one⟩
  rw [div_le_iff₀ (by norm_num)]
  have := Int.le_ceil (lat / 10)
  rw [div_le_iff₀ (by norm_num)] at this
  linarith

/-- North of the equator, inside coverage and below the last row, the cast is the
floor: the row is `6 + n` for the band `n = ⌊lat / 10⌋` and the latitude fraction
is the fractional part of `lat / 10`. -/
theorem lat_north {lat : K} (h0 : 0 ≤ lat) (h60 : lat < 60) :
    ∃ n : ℕ, n ≤ 5 ∧ ⌊lat / 10⌋ = (n : ℤ) ∧ min_lat_index lat = 6 + n ∧
      lat_scale lat = lat / 10 - (n : K) := by
  have hx : (0 : K) ≤ lat / 10 := by
    apply div_nonneg <;> linarith
  have hf0 : (0 : ℤ) ≤ ⌊lat / 10⌋ := Int.floor_nonneg.mpr hx
  have hf5 : ⌊lat / 10⌋ < (6 : ℤ) := by
    rw [Int.floor_lt]
    push_cast
    rw [div_lt_iff₀ (by norm_num)]
    linarith
  obtain ⟨n, hn⟩ := Int.eq_ofNat_of_zero_le hf0
  have hm : max (-6) (min 5 ⌊lat / 10⌋) = (n : ℤ) := by omega
  refine ⟨n, by omega, hn, ?_, ?_⟩
  · rw [min_lat_index_eq, int_cast_of_nonneg hx, hm]
    omega
  · rw [lat_scale_eq, int_cast_of_nonneg hx, hm]
    have hle := Int.floor_le (lat / 10)
    have hlt := Int.lt_floor_add_one (lat / 10)
    rw [hn] at hle hlt
    push_cast at hle hlt ⊢
    have e : (lat - (n : K) * 10) / 10 = lat / 10 - (n : K) := by ring
    rw [e]
    exact constrain_of_mem (by linarith) (by linarith)

/-- East of the prime meridian and below the last column: the column is `18 + n`
for the band `n = ⌊lon / 10⌋` and the longitude fraction is the fractional part of
`lon / 10`. -/
theorem lon_east {lon : K} (h0 : 0 ≤ lon) (h180 : lon < 180) :
    ∃ n : ℕ, n ≤ 17 ∧ ⌊lon / 10⌋ = (n : ℤ) ∧ min_lon_index lon = 18 + n ∧
      lon_scale lon = lon / 10 - (n : K) := by
  have hx : (0 : K) ≤ lon / 10 := by
    apply div_nonneg <;> linarith
  have hf0 : (0 : ℤ) ≤ ⌊lon / 10⌋ := Int.floor_nonneg.mpr hx
  have hf5 : ⌊lon / 10⌋ < (18 : ℤ) := by
    rw [Int.floor_lt]
    push_cast
    rw [div_lt_iff₀ (by norm_num)]
    linarith
  obtain ⟨n, hn⟩ := Int.eq_ofNat_of_zero_le hf0
  have hm : max (-18) (min 17 ⌊lon / 10⌋) = (n : ℤ) := by omega
  refine ⟨n, by omega, hn, ?_, ?_⟩
  · rw [min_lon_index_eq, int_cast_of_nonneg hx, hm]
    omega
  · rw [lon_scale_eq, int_cast_of_nonneg hx, hm]
    have hle := Int.floor_le (lon / 10)
    have hlt := Int.lt_floor_add_one (lon / 10)
    rw [hn] at hle hlt
    push_cast at hle hlt ⊢
    have e : (lon - (n : K) * 10) / 10 = lon / 10 - (n : K) := by ring
    rw [e]
    exact constrain_of_mem (by linarith) (by linarith)

/-- The declination at longitude 0 for a latitude strictly between -10 and 0 is the
sample of row 6 (latitude 0), column 18. -/
theorem declination_south_of_equator {lat : K} (h1 : -10 < lat) (h2 : lat < 0) :
    get_table_data lat 0 declination_table = some (-5) := by
  obtain ⟨hi, hs⟩ := lat_south h2.le (by linarith)
  have hc : ⌈lat / 10⌉ = 0 := by
    rw [Int.ceil_eq_iff]
    push_cast
    constructor
    · rw [lt_div_iff₀ (by norm_num)]; linarith
    · rw [div_le_iff₀ (by norm_num)]; linarith
  rw [hc] at hi
  have hi6 : min_lat_index lat = 6 := hi
  obtain ⟨hj, hl⟩ := lon_sample_point (K := K) 18 (by decide)
  have e0 : (-180 + 10 * ((18 : ℕ) : K)) = 0 := by push_cast; norm_num
  rw [e0] at hj hl
  have hj18 : min_lon_index (0 : K) = 18 := hj
  rw [if_neg (by decide)] at hl
  rw [get_table_data_in_range lat 0 declination_table ⟨by linarith, by linarith⟩
    (by norm_num) hi6 hj18 (by decide) (by decide), hs, hl, blend_zero_zero]
  have : declination_table ⟨6, by decide⟩ ⟨18, by decide⟩ = -5 := by decide
  rw [this]
  norm_num

/-- The declination at the sample point `(-10, 0)` is the sample of row 5. -/
theorem declination_at_minus_ten :
    get_table_data (-10 : K) 0 declination_table = some (-10) := by
  have h := get_table_data_at_sample (K := K) declination_table ⟨5, by decide⟩ ⟨18, by decide⟩
  have e1 : (-60 + 10 * ((5 : ℕ) : K)) = -10 := by push_cast; norm_num
  have e2 : (-180 + 10 * ((18 : ℕ) : K)) = 0 := by push_cast; norm_num
  simp only [e1, e2] at h
  rw [h]
  have : declination_table ⟨5, by decide⟩ ⟨18, by decide⟩ = -10 := by decide
  rw [this]
  norm_num

end Lemmas

/-! ## The lookup: range policy, index safety, sample points -/

section Lookup

variable {K : Type} [LinearOrderedField K] [FloorRing K]

/-- C1. Outside the geodetic range (`lat < -90`, `lat > 90`, `lon < -180` or
`lon > 180`) `get_table_data` returns exactly 0, whatever the table holds. -/
theorem get_table_data_out_of_range (lat lon : K) (table : Table)
    (h : lat < -90 ∨ lat > 90 ∨ lon < -180 ∨ lon > 180) :
    get_table_data lat lon table = some 0 :=
  get_table_data_zero_fallback lat lon table h

theorem get_table_data_out_of_range_witness :
    ((91 : ℚ) < -90 ∨ (91 : ℚ) > 90 ∨ (0 : ℚ) < -180 ∨ (0 : ℚ) > 180) ∧
      get_table_data (91 : ℚ) 0 strength_table = some 0 :=
  ⟨by norm_num, get_table_data_out_of_range 91 0 strength_table (by norm_num)⟩

/-- C2. Inside the geodetic range the indices that `get_table_data` obtains from
`get_lookup_table_index` satisfy `0 ≤ row ≤ 11` and `0 ≤ col ≤ 35`, as `int` and
after the conversion to `unsigned`, so the four reads succeed and the function
returns a value. -/
theorem lookup_indices_in_grid (lat lon : K) (hlat : -90 ≤ lat ∧ lat ≤ 90)
    (hlon : -180 ≤ lon ∧ lon ≤ 180) :
    (0 ≤ (min_lat_cell lat).1 ∧ (min_lat_cell lat).1 ≤ 11) ∧
    (0 ≤ (min_lon_cell lon).1 ∧ (min_lon_cell lon).1 ≤ 35) ∧
    ((min_lat_index lat : ℤ) = (min_lat_cell lat).1 ∧ min_lat_index lat ≤ 11) ∧
    ((min_lon_index lon : ℤ) = (min_lon_cell lon).1 ∧ min_lon_index lon ≤ 35) ∧
    ∀ table : Table,
      (table_read table (min_lat_index lat) (min_lon_index lon)).isSome = true ∧
      (table_read table (min_lat_index lat) ((min_lon_index lon + 1) % 2 ^ 32)).isSome = true ∧
      (table_read table ((min_lat_index lat + 1) % 2 ^ 32)
        ((min_lon_index lon + 1) % 2 ^ 32)).isSome = true ∧
      (table_read table ((min_lat_index lat + 1) % 2 ^ 32) (min_lon_index lon)).isSome = true ∧
      (get_table_data lat lon table).isSome = true := by
  have hr := min_lat_index_le lat
  have hc := min_lon_index_le lon
  have e1 : (min_lat_index lat + 1) % 2 ^ 32 = min_lat_index lat + 1 :=
    Nat.mod_eq_of_lt (by omega)
  have e2 : (min_lon_index lon + 1) % 2 ^ 32 = min_lon_index lon + 1 :=
    Nat.mod_eq_of_lt (by omega)
  refine ⟨?_, ?_, ⟨?_, hr⟩, ⟨?_, hc⟩, fun table => ⟨?_, ?_, ?_, ?_, ?_⟩⟩
  · rw [min_lat_cell_eq]; constructor <;> simp only <;> omega
  · rw [min_lon_cell_eq]; constructor <;> simp only <;> omega
  · rw [min_lat_index_eq, min_lat_cell_eq]; simp only; omega
  · rw [min_lon_index_eq, min_lon_cell_eq]; simp only; omega
  · rw [table_read_of_lt table (by omega) (by omega)]; rfl
  · rw [e2, table_read_of_lt table (by omega) (by omega)]; rfl
  · rw [e1, e2, table_read_of_lt table (by omega) (by omega)]; rfl
  · rw [e1, table_read_of_lt table (by omega) (by omega)]; rfl
  · rw [get_table_data_in_range lat lon table hlat hlon rfl rfl (by omega) (by omega)]; rfl

theorem lookup_indices_in_grid_witness :
    (-90 ≤ (90 : ℚ) ∧ (90 : ℚ) ≤ 90) ∧ (-180 ≤ (180 : ℚ) ∧ (180 : ℚ) ≤ 180) ∧
      (get_table_data (90 : ℚ) 180 declination_table).isSome = true :=
  ⟨by norm_num, by norm_num,
    ((lookup_indices_in_grid (90 : ℚ) 180 (by norm_num) (by norm_num)).2.2.2.2
      declination_table).2.2.2.2⟩

/-- C3. At every exact sample point `lat = -60 + 10 i`, `lon = -180 + 10 j`
(`0 ≤ i ≤ 12`, `0 ≤ j ≤ 36`, the last row and the last column included)
`get_table_data` returns `table[i][j]`; in particular the declination at `(0, 0)`
is `declination_table[6][18]`, which is -5. -/
theorem get_table_data_sample_point :
    (∀ (table : Table) (i : Fin 13) (j : Fin 37),
      get_table_data (-60 + 10 * ((i : ℕ) : K)) (-180 + 10 * ((j : ℕ) : K)) table
        = some ((table i j : ℤ) : K)) ∧
    get_table_data (0 : K) 0 declination_table = some ((declination_table 6 18 : ℤ) : K) ∧
    declination_table 6 18 = -5 := by
  refine ⟨get_table_data_at_sample, ?_, by decide⟩
  have h := get_table_data_at_sample (K := K) declination_table ⟨6, by decide⟩ ⟨18, by decide⟩
  have e1 : (-60 + 10 * ((6 : ℕ) : K)) = 0 := by push_cast; norm_num
  have e2 : (-180 + 10 * ((18 : ℕ) : K)) = 0 := by push_cast; norm_num
  simp only [e1, e2] at h
  exact h

/-- C5. For a longitude in range, a latitude in `[60, 90]` gives the value at
latitude 60, which is read from row 12 alone, and a latitude in `[-90, -60]` gives
the value at latitude -60, which is read from row 0 alone: the nearest edge row,
not the zero fallback. -/
theorem get_table_data_lat_beyond_coverage (lat lon : K) (table : Table)
    (hlon : -180 ≤ lon ∧ lon ≤ 180) :
    (60 ≤ lat ∧ lat ≤ 90 →
      get_table_data lat lon table = get_table_data 60 lon table ∧
      ∃ w e : ℤ, table_read table 12 (min_lon_index lon) = some w ∧
        table_read table 12 (min_lon_index lon + 1) = some e ∧
        get_table_data lat lon table = some (lon_scale lon * ((e : K) - (w : K)) + (w : K))) ∧
    (-90 ≤ lat ∧ lat ≤ -60 →
      get_table_data lat lon table = get_table_data (-60) lon table ∧
      ∃ w e : ℤ, table_read table 0 (min_lon_index lon) = some w ∧
        table_read table 0 (min_lon_index lon + 1) = some e ∧
        get_table_data lat lon table = some (lon_scale lon * ((e : K) - (w : K)) + (w : K))) := by
  have hc := min_lon_index_le lon
  constructor
  · intro h
    have hl90 : -90 ≤ lat ∧ lat ≤ 90 := ⟨by linarith [h.1], h.2⟩
    obtain ⟨hi, hs⟩ := lat_high h.1
    obtain ⟨hi60, hs60⟩ := lat_high (le_refl (60 : K))
    refine ⟨get_table_data_congr_lat lon table hl90 (by norm_num) (hi.trans hi60.symm)
      (hs.trans hs60.symm), _, _, table_read_of_lt table (by omega) (by omega),
      table_read_of_lt table (by omega) (by omega), ?_⟩
    rw [get_table_data_in_range lat lon table hl90 hlon hi rfl (by omega) (by omega), hs,
      blend_one_left]
  · intro h
    have hl90 : -90 ≤ lat ∧ lat ≤ 90 := ⟨h.1, by linarith [h.2]⟩
    obtain ⟨hi, hs⟩ := lat_low h.2
    obtain ⟨hi60, hs60⟩ := lat_low (le_refl (-60 : K))
    refine ⟨get_table_data_congr_lat lon table hl90 (by norm_num) (hi.trans hi60.symm)
      (hs.trans hs60.symm), _, _, table_read_of_lt table (by omega) (by omega),
      table_read_of_lt table (by omega) (by omega), ?_⟩
    rw [get_table_data_in_range lat lon table hl90 hlon hi rfl (by omega) (by omega), hs,
      blend_zero_left]

theorem get_table_data_lat_beyond_coverage_witness :
    (-180 ≤ (8 : ℚ) ∧ (8 : ℚ) ≤ 180) ∧ (60 ≤ (75 : ℚ) ∧ (75 : ℚ) ≤ 90) ∧
      (-90 ≤ (-75 : ℚ) ∧ (-75 : ℚ) ≤ -60) ∧
      get_table_data (75 : ℚ) 8 declination_table = get_table_data 60 8 declination_table ∧
      get_table_data (-75 : ℚ) 8 declination_table
        = get_table_data (-60) 8 declination_table :=
  ⟨by norm_num, by norm_num, by norm_num,
    ((get_table_data_lat_beyond_coverage (75 : ℚ) 8 declination_table (by norm_num)).1
      (by norm_num)).1,
    ((get_table_data_lat_beyond_coverage (-75 : ℚ) 8 declination_table (by norm_num)).2
      (by norm_num)).1⟩

/-- C6. The lookup is not continuous at the internal cell boundary `lat = -10`,
`lon = 0` of the declination table: the value there is -10, while every latitude
strictly between -10 and 0 gives -5, so points as near to the boundary as one
likes differ from the boundary value by 5. -/
theorem get_table_data_jump_at_minus_ten :
    get_table_data (-10 : ℚ) 0 declination_table = some (-10) ∧
    get_table_data (-9999 / 1000 : ℚ) 0 declination_table = some (-5) ∧
    ∃ eps : ℚ, 0 < eps ∧ ∀ delta : ℚ, 0 < delta →
      ∃ lat : ℚ, |lat - (-10)| < delta ∧ (-60 ≤ lat ∧ lat ≤ 60) ∧
        ∃ v : ℚ, get_table_data lat 0 declination_table = some v ∧ eps ≤ |v - (-10)| := by
  refine ⟨declination_at_minus_ten, declination_south_of_equator (by norm_num) (by norm_num),
    5, by norm_num, fun delta hd => ?_⟩
  have hm1 : 0 < min (delta / 2) 5 := lt_min (by linarith) (by norm_num)
  have hm2 : min (delta / 2) 5 ≤ delta / 2 := min_le_left _ _
  have hm3 : min (delta / 2) 5 ≤ 5 := min_le_right _ _
  refine ⟨-10 + min (delta / 2) 5, ?_, ⟨by linarith, by linarith⟩, -5,
    declination_south_of_equator (by linarith) (by linarith), by norm_num⟩
  rw [abs_lt]
  constructor <;> linarith

end Lookup

/-! ## The Earth field model and the magnetometer adapter -/

section Narrowing

variable {K : Type} [LinearOrderedField K] [FloorRing K]

theorem round_half_even_of_lt {y : K} {f : ℤ} (hf : ⌊y⌋ = f) (h : y - (f : K) < 1 / 2) :
    round_half_even y = f := by
  unfold round_half_even
  rw [hf, if_pos h]

theorem round_half_even_intCast (z : ℤ) : round_half_even ((z : ℤ) : K) = z := by
  apply round_half_even_of_lt (Int.floor_intCast z)
  norm_num

/-- In the binade `2 ^ e ≤ |x| < 2 ^ (e + 1)` of the normal range the exponent is
`e`. -/
theorem float_exponent_eq {x : K} (e : ℤ) (he : -126 ≤ e) (h1 : (2 : K) ^ e ≤ |x|)
    (h2 : |x| < (2 : K) ^ (e + 1)) : float_exponent x = e := by
  have hpos : (0 : K) < |x| := lt_of_lt_of_le (zpow_pos (by norm_num) e) h1
  have a : e ≤ Int.log 2 |x| := by
    rw [← Int.zpow_le_iff_le_log (by norm_num) hpos]
    exact_mod_cast h1
  have b : Int.log 2 |x| < e + 1 := by
    rw [← Int.lt_zpow_iff_log_lt (by norm_num) hpos]
    exact_mod_cast h2
  unfold float_exponent
  omega

/-- Between 64 and 128 the binary32 values are the multiples of `2 ^ (-17)`. -/
theorem double_to_float_binade_six {x : K} (h1 : 64 ≤ x) (h2 : x < 128) :
    double_to_float x = (round_half_even (x * 131072) : K) / 131072 := by
  have hx : |x| = x := abs_of_pos (by linarith)
  have he : float_exponent x = 6 := by
    apply float_exponent_eq 6 (by norm_num)
    · rw [hx]; norm_num; exact h1
    · rw [hx]; norm_num; exact h2
  have hq : (2 : K) ^ ((6 : ℤ) - 23) = 1 / 131072 := by norm_num
  unfold double_to_float
  rw [he, hq]
  have e1 : x / (1 / 131072) = x * 131072 := by field_simp
  rw [e1]
  ring

theorem double_to_float_zero : double_to_float (0 : K) = 0 := by
  unfold double_to_float
  have e : (0 : K) / 2 ^ (float_exponent (0 : K) - 23) = ((0 : ℤ) : K) := by simp
  rw [e, round_half_even_intCast]
  simp

theorem double_to_float_ninety_one : double_to_float (91 : K) = 91 := by
  rw [double_to_float_binade_six (by norm_num) (by norm_num)]
  have e : (91 : K) * 131072 = ((11927552 : ℤ) : K) := by push_cast; norm_num
  rw [e, round_half_even_intCast]
  push_cast
  norm_num

/-- The `double` just above 90, `90 + 2 ^ (-20)`, narrows to the `float` 90. -/
theorem double_to_float_above_ninety : double_to_float (90 + 1 / 2 ^ 20 : K) = 90 := by
  rw [double_to_float_binade_six (by norm_num) (by norm_num)]
  have hf : ⌊(90 + 1 / 2 ^ 20 : K) * 131072⌋ = 11796480 := by
    rw [Int.floor_eq_iff]
    push_cast
    constructor <;> norm_num
  rw [round_half_even_of_lt hf (by push_cast; norm_num)]
  push_cast
  norm_num

/-- At latitude 90 and longitude 0 the lookup returns the sample of row 12, column
18. -/
theorem get_table_data_ninety_zero (table : Table) :
    get_table_data (90 : K) 0 table
      = some ((table ⟨12, by decide⟩ ⟨18, by decide⟩ : ℤ) : K) := by
  obtain ⟨hi, hs⟩ := lat_high (by norm_num : (60 : K) ≤ 90)
  obtain ⟨hj, hl⟩ := lon_sample_point (K := K) 18 (by decide)
  have e0 : (-180 + 10 * ((18 : ℕ) : K)) = 0 := by push_cast; norm_num
  rw [e0] at hj hl
  have hj18 : min_lon_index (0 : K) = 18 := hj
  rw [if_neg (by decide)] at hl
  have hA := get_table_data_in_range (90 : K) 0 table (by norm_num) (by norm_num) hi hj18
    (by decide) (by decide)
  rw [hA, hs, hl, blend_one_zero]

end Narrowing

section Vectors

variable {K : Type} [LinearOrderedField K]

theorem vec3_add_zero (f : Fin 3 → K) : ![f 0 + 0, f 1 + 0, f 2 + 0] = f := by
  funext i
  fin_cases i <;> simp

/-- With all three looked-up values 0 the body-frame vector is 0 for every DCM. -/
theorem earth_to_body_rotation_mag_e_zero (m : MathLib K) (dcm_be : Fin 3 → Fin 3 → K) :
    earth_to_body_rotation dcm_be (mag_e m 0 0 0) = ![0, 0, 0] := by
  funext i
  fin_cases i <;> simp [earth_to_body_rotation, mag_e]

end Vectors

section Field

variable {K : Type} [LinearOrderedField K] [FloorRing K]

/-- The function `calc_mag_field` always writes a vector. -/
theorem calc_mag_field_returns (m : MathLib K) (lat lon : K) (dcm_be : Fin 3 → Fin 3 → K) :
    ∃ field, calc_mag_field m lat lon dcm_be = some field := by
  obtain ⟨d, hd⟩ := get_table_data_returns (double_to_float lat) (double_to_float lon)
    declination_table
  obtain ⟨i, hi⟩ := get_table_data_returns (double_to_float lat) (double_to_float lon)
    inclination_table
  obtain ⟨s, hs⟩ := get_table_data_returns (double_to_float lat) (double_to_float lon)
    strength_table
  refine ⟨earth_to_body_rotation dcm_be (mag_e m d i s), ?_⟩
  unfold calc_mag_field get_mag_declination get_mag_inclination get_mag_strength
  rw [hd, hi, hs]

/-- With `NOISE` equal to 0, `update_mag` stores the vector of `calc_mag_field`, keeps
the noise parameter and leaves the noise generator alone. -/
theorem update_mag_of_calc {G : Type} (m : MathLib K) (zero_mean_noise : K → G → K × G)
    (g : G) (mag : MagSensor K) (lat lon : K) (dcm_be : Fin 3 → Fin 3 → K)
    {field : Fin 3 → K} (h : calc_mag_field m lat lon dcm_be = some field) :
    update_mag m zero_mean_noise g mag lat lon dcm_be
      = some ({ mag_field := field, mag_noise_std_dev := mag.mag_noise_std_dev }, g) := by
  unfold update_mag
  rw [h]
  simp only [noise_term, NOISE, ne_eq, not_true_eq_false, if_false, vec3_add_zero]

/-- C7, as amended. For every DCM and every `(lat, lon)` whose values, narrowed to
`float` as `calc_mag_field` passes them to the lookups, lie outside the geodetic
range, `calc_mag_field` produces the zero vector, and `update_mag` (noise disabled)
stores `(0, 0, 0)` and returns normally, without drawing noise. -/
theorem calc_mag_field_out_of_float_range {G : Type} (m : MathLib K)
    (zero_mean_noise : K → G → K × G) (g : G) (mag : MagSensor K) (lat lon : K)
    (dcm_be : Fin 3 → Fin 3 → K)
    (h : double_to_float lat < -90 ∨ double_to_float lat > 90 ∨
      double_to_float lon < -180 ∨ double_to_float lon > 180) :
    calc_mag_field m lat lon dcm_be = some ![0, 0, 0] ∧
      update_mag m zero_mean_noise g mag lat lon dcm_be
        = some ({ mag_field := ![0, 0, 0], mag_noise_std_dev := mag.mag_noise_std_dev }, g) := by
  have hc : calc_mag_field m lat lon dcm_be = some ![0, 0, 0] := by
    unfold calc_mag_field get_mag_declination get_mag_inclination get_mag_strength
    rw [get_table_data_zero_fallback _ _ declination_table h,
      get_table_data_zero_fallback _ _ inclination_table h,
      get_table_data_zero_fallback _ _ strength_table h]
    simp only [earth_to_body_rotation_mag_e_zero]
  exact ⟨hc, update_mag_of_calc m zero_mean_noise g mag lat lon dcm_be hc⟩

theorem calc_mag_field_out_of_float_range_witness :
    (double_to_float (91 : ℚ) < -90 ∨ double_to_float (91 : ℚ) > 90 ∨
      double_to_float (0 : ℚ) < -180 ∨ double_to_float (0 : ℚ) > 180) ∧
      calc_mag_field (⟨3, id, id, id, id⟩ : MathLib ℚ) 91 0 ![![1, 0, 0], ![0, 1, 0], ![0, 0, 1]]
        = some ![0, 0, 0] := by
  have h : double_to_float (91 : ℚ) < -90 ∨ double_to_float (91 : ℚ) > 90 ∨
      double_to_float (0 : ℚ) < -180 ∨ double_to_float (0 : ℚ) > 180 := by
    rw [double_to_float_ninety_one]
    norm_num
  exact ⟨h, (calc_mag_field_out_of_float_range (⟨3, id, id, id, id⟩ : MathLib ℚ)
    (fun (x : ℚ) (n : ℕ) => (x, n + 1)) 0 ⟨![1, 2, 3], 1⟩ 91 0
    ![![1, 0, 0], ![0, 1, 0], ![0, 0, 1]] h).1⟩

/-- C8. With noise disabled (`NOISE = 0`) `update_mag` is deterministic and does not
depend on the previous reading: for any two sensor states, noise sources and
generator states, and the same `(lat, lon, dcm)`, both calls return and store the
same vector, the one of `calc_mag_field` with zero added on each axis. -/
theorem update_mag_deterministic {G G1 : Type} (m : MathLib K)
    (zero_mean_noise : K → G → K × G) (zero_mean_noise1 : K → G1 → K × G1) (g : G) (g1 : G1)
    (s1 s2 : MagSensor K) (lat lon : K) (dcm_be : Fin 3 → Fin 3 → K) :
    NOISE = 0 ∧
    ∃ field : Fin 3 → K,
      calc_mag_field m lat lon dcm_be = some field ∧
      update_mag m zero_mean_noise g s1 lat lon dcm_be
        = some ({ mag_field := ![field 0 + 0, field 1 + 0, field 2 + 0],
                  mag_noise_std_dev := s1.mag_noise_std_dev }, g) ∧
      update_mag m zero_mean_noise1 g1 s2 lat lon dcm_be
        = some ({ mag_field := ![field 0 + 0, field 1 + 0, field 2 + 0],
                  mag_noise_std_dev := s2.mag_noise_std_dev }, g1) ∧
      ![field 0 + 0, field 1 + 0, field 2 + 0] = field := by
  obtain ⟨field, hf⟩ := calc_mag_field_returns m lat lon dcm_be
  refine ⟨rfl, field, hf, ?_, ?_, vec3_add_zero field⟩
  · rw [vec3_add_zero]
    exact update_mag_of_calc m zero_mean_noise g s1 lat lon dcm_be hf
  · rw [vec3_add_zero]
    exact update_mag_of_calc m zero_mean_noise1 g1 s2 lat lon dcm_be hf

/-- C9. With noise disabled, `update_mag` at the home coordinates
(`HOME_LAT = 47.397742`, `HOME_LON = 8.545594`) with the home-yaw DCM, rows
`(cos y, sin y, 0)`, `(-sin y, cos y, 0)`, `(0, 0, 1)` for `y = HOME_YAW`, stores the
vector that `init_mag` stores, for every sensor state and every `noise_std_dev`;
and `init_mag` stores `noise_std_dev` as `mag_noise_std_dev`. -/
theorem init_mag_agrees_with_update_at_home {G : Type} (m : MathLib K)
    (zero_mean_noise : K → G → K × G) (g : G) (mag mag0 : MagSensor K) (noise_std_dev : K) :
    (HOME_LAT : K) = 47.397742 ∧ (HOME_LON : K) = 8.545594 ∧
    ∃ field : Fin 3 → K,
      init_mag m mag0 noise_std_dev
        = some { mag_field := field, mag_noise_std_dev := noise_std_dev } ∧
      update_mag m zero_mean_noise g mag HOME_LAT HOME_LON
          ![![m.cos (HOME_YAW m), m.sin (HOME_YAW m), 0],
            ![-m.sin (HOME_YAW m), m.cos (HOME_YAW m), 0],
            ![0, 0, 1]]
        = some ({ mag_field := field, mag_noise_std_dev := mag.mag_noise_std_dev }, g) := by
  obtain ⟨field, hf⟩ := calc_mag_field_returns m HOME_LAT HOME_LON (home_dcm m)
  refine ⟨rfl, rfl, field, ?_, ?_⟩
  · unfold init_mag
    simp only [hf]
  · exact update_mag_of_calc m zero_mean_noise g mag HOME_LAT HOME_LON (home_dcm m) hf

end Field

/-! ## Truncation toward zero: the southern and western hemispheres -/

section Truncation

variable {K : Type} [LinearOrderedField K] [FloorRing K]

/-- West of the prime meridian the cast leaves `min_lon` at or above `lon`: the
column is the one of the band `⌈lon / 10⌉` and the longitude fraction is clamped
to 0. -/
theorem lon_west {lon : K} (h0 : lon ≤ 0) (h180 : -180 ≤ lon) :
    min_lon_index lon = (⌈lon / 10⌉ + 18).toNat ∧ lon_scale lon = 0 := by
  have hx : lon / 10 ≤ (0 : K) := by
    apply div_nonpos_of_nonpos_of_nonneg <;> linarith
  have ht0 : ⌈lon / 10⌉ ≤ (0 : ℤ) := by
    rw [Int.ceil_le]
    exact_mod_cast hx
  have ht18 : (-18 : ℤ) ≤ ⌈lon / 10⌉ := by
    rw [Int.le_ceil_iff]
    push_cast
    rw [lt_div_iff₀ (by norm_num)]
    linarith
  have hm : max (-18) (min 17 ⌈lon / 10⌉) = ⌈lon / 10⌉ := by omega
  rw [min_lon_index_eq, lon_scale_eq, int_cast_of_nonpos hx, hm]
  refine ⟨rfl, constrain_of_le_lo ?_ zero_le_one⟩
  rw [div_le_iff₀ (by norm_num)]
  have := Int.le_ceil (lon / 10)
  rw [div_le_iff₀ (by norm_num)] at this
  linarith

/-- For a value that is not an integer the ceiling is one above the floor. -/
theorem ceil_eq_floor_add_one {x : K} (hx : ∀ z : ℤ, x ≠ (z : K)) : ⌈x⌉ = ⌊x⌋ + 1 := by
  rw [Int.ceil_eq_iff]
  push_cast
  constructor
  · have h1 := Int.floor_le x
    have h2 : ((⌊x⌋ : ℤ) : K) ≠ x := fun h => hx ⌊x⌋ h.symm
    have h3 := lt_of_le_of_ne h1 h2
    linarith
  · exact (Int.lt_floor_add_one x).le

theorem floor_lat_index_eq (lat : K) : floor_lat_index lat = ⌊lat / 10⌋ + 6 := by
  unfold floor_lat_index
  have e : (lat + 60) / 10 = lat / 10 + ((6 : ℤ) : K) := by push_cast; ring
  rw [e, Int.floor_add_int]

theorem floor_lon_index_eq (lon : K) : floor_lon_index lon = ⌊lon / 10⌋ + 18 := by
  unfold floor_lon_index
  have e : (lon + 180) / 10 = lon / 10 + ((18 : ℤ) : K) := by push_cast; ring
  rw [e, Int.floor_add_int]

/-- For a negative latitude inside coverage that is not a multiple of 10 the row
index is one above the floor-based index. -/
theorem min_lat_index_south {lat : K} (h60 : -60 < lat) (h0 : lat < 0)
    (hx : ∀ z : ℤ, lat ≠ 10 * (z : K)) :
    (min_lat_index lat : ℤ) = floor_lat_index lat + 1 := by
  obtain ⟨hi, -⟩ := lat_south h0.le h60.le
  have hc := ceil_eq_floor_add_one (not_int_div_ten hx)
  have h6 : (-6 : ℤ) ≤ ⌈lat / 10⌉ := by
    rw [Int.le_ceil_iff]
    push_cast
    rw [lt_div_iff₀ (by norm_num)]
    linarith
  rw [hi, floor_lat_index_eq]
  omega

/-- For a negative longitude inside coverage that is not a multiple of 10 the
column index is one above the floor-based index. -/
theorem min_lon_index_west {lon : K} (h180 : -180 < lon) (h0 : lon < 0)
    (hx : ∀ z : ℤ, lon ≠ 10 * (z : K)) :
    (min_lon_index lon : ℤ) = floor_lon_index lon + 1 := by
  obtain ⟨hi, -⟩ := lon_west h0.le h180.le
  have hc := ceil_eq_floor_add_one (not_int_div_ten hx)
  have h18 : (-18 : ℤ) ≤ ⌈lon / 10⌉ := by
    rw [Int.le_ceil_iff]
    push_cast
    rw [lt_div_iff₀ (by norm_num)]
    linarith
  rw [hi, floor_lon_index_eq]
  omega

/-- At latitude 60 the clamp selects row 11, and the floor-based index is 12. -/
theorem lat_index_at_sixty :
    min_lat_index (60 : K) = 11 ∧ floor_lat_index (60 : K) = 12 := by
  refine ⟨(lat_high (le_refl (60 : K))).1, ?_⟩
  have e : (60 : K) / 10 = ((6 : ℤ) : K) := by push_cast; norm_num
  rw [floor_lat_index_eq, e, Int.floor_intCast]
  rfl

/-- At longitude 180 the clamp selects column 35, and the floor-based index is 36. -/
theorem lon_index_at_one_eighty :
    min_lon_index (180 : K) = 35 ∧ floor_lon_index (180 : K) = 36 := by
  obtain ⟨hj, -⟩ := lon_sample_point (K := K) 36 (by decide)
  have e0 : (-180 + 10 * ((36 : ℕ) : K)) = 180 := by push_cast; norm_num
  rw [e0] at hj
  refine ⟨hj, ?_⟩
  have e : (180 : K) / 10 = ((18 : ℤ) : K) := by push_cast; norm_num
  rw [floor_lon_index_eq, e, Int.floor_intCast]
  rfl

/-- South of the equator the lookup at `lat` is the lookup at the sample latitude
`10 * ⌈lat / 10⌉` of its band. -/
theorem get_table_data_south_eq_band (lat lon : K) (table : Table)
    (hlat : -60 ≤ lat ∧ lat ≤ 0) :
    get_table_data lat lon table
      = get_table_data (10 * ((⌈lat / 10⌉ : ℤ) : K)) lon table := by
  have hx : lat / 10 ≤ (0 : K) := by
    apply div_nonpos_of_nonpos_of_nonneg <;> linarith [hlat.2]
  have ht0 : ((⌈lat / 10⌉ : ℤ) : K) ≤ 0 := by
    have : ⌈lat / 10⌉ ≤ (0 : ℤ) := by
      rw [Int.ceil_le]
      exact_mod_cast hx
    exact_mod_cast this
  have ht6 : (-6 : K) ≤ ((⌈lat / 10⌉ : ℤ) : K) := by
    have : (-6 : ℤ) ≤ ⌈lat / 10⌉ := by
      rw [Int.le_ceil_iff]
      push_cast
      rw [lt_div_iff₀ (by norm_num)]
      linarith [hlat.1]
    exact_mod_cast this
  have h1 : 10 * ((⌈lat / 10⌉ : ℤ) : K) ≤ 0 := by linarith
  have h2 : -60 ≤ 10 * ((⌈lat / 10⌉ : ℤ) : K) := by linarith
  obtain ⟨hi, hs⟩ := lat_south hlat.2 hlat.1
  obtain ⟨hi1, hs1⟩ := lat_south h1 h2
  have e : 10 * ((⌈lat / 10⌉ : ℤ) : K) / 10 = ((⌈lat / 10⌉ : ℤ) : K) := by ring
  rw [e, Int.ceil_intCast] at hi1
  exact get_table_data_congr_lat lon table ⟨by linarith [hlat.1], by linarith [hlat.2]⟩
    ⟨by linarith, by linarith⟩ (hi.trans hi1.symm) (hs.trans hs1.symm)

/-- The band of a latitude in `(-10 (k + 1), -10 k]` is `-k`. -/
theorem ceil_of_south_band {lat : K} (k : ℕ) (h1 : -10 * ((k : K) + 1) < lat)
    (h2 : lat ≤ -10 * (k : K)) : ⌈lat / 10⌉ = -(k : ℤ) := by
  rw [Int.ceil_eq_iff]
  push_cast
  constructor
  · rw [lt_div_iff₀ (by norm_num)]; linarith
  · rw [div_le_iff₀ (by norm_num)]; linarith

end Truncation

section TruncationClaims

variable {K : Type} [LinearOrderedField K] [FloorRing K]

/-- C11, as amended. The cell base is computed by truncation toward zero: for a
negative latitude in `(-60, 0)` that is not a multiple of 10 the row index of
`get_table_data` is one above the floor-based index `floor((lat + 60) / 10)`, and
likewise for a negative longitude in `(-180, 0)` and the column index; for
`0 ≤ lat < 60` and `0 ≤ lon < 180` the two indexings agree; at `lat = 60` and at
`lon = 180` the clamp gives 11 and 35, one below the floor-based 12 and 36. -/
theorem index_truncation_toward_zero (lat lon : K) :
    (-60 < lat → lat < 0 → (∀ z : ℤ, lat ≠ 10 * (z : K)) →
      (min_lat_index lat : ℤ) = floor_lat_index lat + 1) ∧
    (-180 < lon → lon < 0 → (∀ z : ℤ, lon ≠ 10 * (z : K)) →
      (min_lon_index lon : ℤ) = floor_lon_index lon + 1) ∧
    (0 ≤ lat → lat < 60 → (min_lat_index lat : ℤ) = floor_lat_index lat) ∧
    (0 ≤ lon → lon < 180 → (min_lon_index lon : ℤ) = floor_lon_index lon) ∧
    ((min_lat_index (60 : K) : ℤ) = 11 ∧ floor_lat_index (60 : K) = 12) ∧
    ((min_lon_index (180 : K) : ℤ) = 35 ∧ floor_lon_index (180 : K) = 36) := by
  refine ⟨min_lat_index_south, min_lon_index_west, ?_, ?_, ?_, ?_⟩
  · intro h0 h60
    obtain ⟨n, -, hf, hi, -⟩ := lat_north h0 h60
    rw [floor_lat_index_eq, hf, hi]
    push_cast
    ring
  · intro h0 h180
    obtain ⟨n, -, hf, hi, -⟩ := lon_east h0 h180
    rw [floor_lon_index_eq, hf, hi]
    push_cast
    ring
  · obtain ⟨h1, h2⟩ := lat_index_at_sixty (K := K)
    exact ⟨by rw [h1]; rfl, h2⟩
  · obtain ⟨h1, h2⟩ := lon_index_at_one_eighty (K := K)
    exact ⟨by rw [h1]; rfl, h2⟩

theorem index_truncation_toward_zero_witness :
    ((-60 : ℚ) < -25 ∧ (-25 : ℚ) < 0 ∧ (∀ z : ℤ, (-25 : ℚ) ≠ 10 * (z : ℚ))) ∧
      (min_lat_index (-25 : ℚ) : ℤ) = floor_lat_index (-25 : ℚ) + 1 ∧
    ((0 : ℚ) ≤ 8 ∧ (8 : ℚ) < 180) ∧
      (min_lon_index (8 : ℚ) : ℤ) = floor_lon_index (8 : ℚ) := by
  have hx : ∀ z : ℤ, (-25 : ℚ) ≠ 10 * (z : ℚ) := by
    intro z h
    have h' : (-25 : ℤ) = 10 * z := by exact_mod_cast h
    omega
  exact ⟨⟨by norm_num, by norm_num, hx⟩,
    (index_truncation_toward_zero (-25 : ℚ) 8).1 (by norm_num) (by norm_num) hx,
    ⟨by norm_num, by norm_num⟩,
    (index_truncation_toward_zero (-25 : ℚ) 8).2.2.2.1 (by norm_num) (by norm_num)⟩

/-- C11, the claim as stated fails at the last sample: the latitude 60 is
non-negative and inside coverage, the code selects row 11 and the floor-based
index is 12; the same at longitude 180 with column 35 against 36. -/
theorem index_agreement_fails_at_edge :
    ((0 : ℚ) ≤ 60 ∧ (60 : ℚ) ≤ 60 ∧
      (min_lat_index (60 : ℚ) : ℤ) ≠ floor_lat_index (60 : ℚ)) ∧
    ((0 : ℚ) ≤ 180 ∧ (180 : ℚ) ≤ 180 ∧
      (min_lon_index (180 : ℚ) : ℤ) ≠ floor_lon_index (180 : ℚ)) := by
  obtain ⟨h1, h2⟩ := lat_index_at_sixty (K := ℚ)
  obtain ⟨h3, h4⟩ := lon_index_at_one_eighty (K := ℚ)
  refine ⟨⟨by norm_num, by norm_num, ?_⟩, by norm_num, by norm_num, ?_⟩
  · rw [h1, h2]; decide
  · rw [h3, h4]; decide

/-- C12. No latitude interpolation happens in the southern hemisphere: for
`-60 ≤ lat ≤ 0` and a longitude in range, `lat_scale` is 0 and the lookup at `lat`
equals the lookup at `10 * ceil(lat / 10)`; so the result is constant in `lat` on
each interval `(-10 (k + 1), -10 k]`. -/
theorem get_table_data_south_no_interpolation (lat lon : K) (table : Table)
    (hlat : -60 ≤ lat ∧ lat ≤ 0) (hlon : -180 ≤ lon ∧ lon ≤ 180) :
    lat_scale lat = 0 ∧
    get_table_data lat lon table
      = get_table_data (10 * ((⌈lat / 10⌉ : ℤ) : K)) lon table ∧
    (∃ w e : ℤ, table_read table (min_lat_index lat) (min_lon_index lon) = some w ∧
      table_read table (min_lat_index lat) (min_lon_index lon + 1) = some e ∧
      get_table_data lat lon table = some (lon_scale lon * ((e : K) - (w : K)) + (w : K))) ∧
    ∀ (k : ℕ) (lat1 : K), -10 * ((k : K) + 1) < lat → lat ≤ -10 * (k : K) →
      -10 * ((k : K) + 1) < lat1 → lat1 ≤ -10 * (k : K) → -60 ≤ lat1 →
      get_table_data lat1 lon table = get_table_data lat lon table := by
  have hr := min_lat_index_le lat
  have hc := min_lon_index_le lon
  refine ⟨(lat_south hlat.2 hlat.1).2, get_table_data_south_eq_band lat lon table hlat,
    ⟨_, _, table_read_of_lt table (by omega) (by omega),
      table_read_of_lt table (by omega) (by omega), ?_⟩, ?_⟩
  · rw [get_table_data_in_range lat lon table ⟨by linarith [hlat.1], by linarith [hlat.2]⟩
      hlon rfl rfl (by omega) (by omega), (lat_south hlat.2 hlat.1).2, blend_zero_left]
  intro k lat1 h1 h2 h3 h4 h5
  have hk : (0 : K) ≤ (k : K) := Nat.cast_nonneg k
  have hlat1 : -60 ≤ lat1 ∧ lat1 ≤ 0 := ⟨h5, by linarith⟩
  rw [get_table_data_south_eq_band lat lon table hlat,
    get_table_data_south_eq_band lat1 lon table hlat1,
    ceil_of_south_band k h1 h2, ceil_of_south_band k h3 h4]

theorem get_table_data_south_no_interpolation_witness :
    ((-60 : ℚ) ≤ -25 ∧ (-25 : ℚ) ≤ 0) ∧ ((-180 : ℚ) ≤ 8 ∧ (8 : ℚ) ≤ 180) ∧
      lat_scale (-25 : ℚ) = 0 ∧
      get_table_data (-25 : ℚ) 8 strength_table
        = get_table_data (10 * ((⌈(-25 : ℚ) / 10⌉ : ℤ) : ℚ)) 8 strength_table :=
  ⟨by norm_num, by norm_num,
    (get_table_data_south_no_interpolation (-25 : ℚ) 8 strength_table (by norm_num)
      (by norm_num)).1,
    (get_table_data_south_no_interpolation (-25 : ℚ) 8 strength_table (by norm_num)
      (by norm_num)).2.1⟩

end TruncationClaims

/-! ## The antimeridian and the range of the looked-up values -/

section TableFacts

variable {K : Type} [LinearOrderedField K] [FloorRing K]

/-- When column 0 and column 36 of a table hold the same samples, the lookups at
longitude -180 and at longitude 180 agree for every latitude in range. -/
theorem get_table_data_antimeridian_of_wrap (table : Table)
    (hw : ∀ i : Fin 13, table i ⟨0, by decide⟩ = table i ⟨36, by decide⟩) (lat : K)
    (hlat : -90 ≤ lat ∧ lat ≤ 90) :
    get_table_data lat (-180) table = get_table_data lat 180 table := by
  have hr := min_lat_index_le lat
  obtain ⟨hj0, hs0⟩ := lon_sample_point (K := K) 0 (by decide)
  obtain ⟨hj36, hs36⟩ := lon_sample_point (K := K) 36 (by decide)
  have e0 : (-180 + 10 * ((0 : ℕ) : K)) = -180 := by push_cast; norm_num
  have e36 : (-180 + 10 * ((36 : ℕ) : K)) = 180 := by push_cast; norm_num
  rw [e0] at hj0 hs0
  rw [e36] at hj36 hs36
  rw [if_neg (by decide)] at hs0
  rw [if_pos rfl] at hs36
  have hj0' : min_lon_index (-180 : K) = 0 := hj0
  have hj36' : min_lon_index (180 : K) = 35 := hj36
  have hA := get_table_data_in_range lat (-180) table hlat (by norm_num) rfl hj0' (by omega)
    (by decide)
  have hB := get_table_data_in_range lat 180 table hlat (by norm_num) rfl hj36' (by omega)
    (by decide)
  rw [hA, hB, hs0, hs36, blend_right_zero, blend_right_one]
  have h1 := hw ⟨min_lat_index lat, by omega⟩
  have h2 := hw ⟨min_lat_index lat + 1, by omega⟩
  rw [h1, h2]

theorem declination_table_wrap :
    ∀ i : Fin 13, declination_table i ⟨0, by decide⟩ = declination_table i ⟨36, by decide⟩ := by
  decide

theorem inclination_table_wrap :
    ∀ i : Fin 13, inclination_table i ⟨0, by decide⟩ = inclination_table i ⟨36, by decide⟩ := by
  decide

theorem strength_table_wrap :
    ∀ i : Fin 13, strength_table i ⟨0, by decide⟩ = strength_table i ⟨36, by decide⟩ := by
  decide

/-- C13. The lookup agrees on the antimeridian: in each of `declination_table`,
`inclination_table` and `strength_table` column 0 and column 36 hold the same
sample in every row, and for every latitude in `[-90, 90]` the lookups at
longitude -180 and at longitude 180 return the same value. -/
theorem get_table_data_antimeridian (lat : K) (hlat : -90 ≤ lat ∧ lat ≤ 90) :
    (∀ i : Fin 13, declination_table i 0 = declination_table i 36 ∧
      inclination_table i 0 = inclination_table i 36 ∧
      strength_table i 0 = strength_table i 36) ∧
    get_table_data lat (-180) declination_table = get_table_data lat 180 declination_table ∧
    get_table_data lat (-180) inclination_table = get_table_data lat 180 inclination_table ∧
    get_table_data lat (-180) strength_table = get_table_data lat 180 strength_table ∧
    min_lon_index (180 : K) = 35 ∧ lon_scale (180 : K) = 1 := by
  obtain ⟨hj36, hs36⟩ := lon_sample_point (K := K) 36 (by decide)
  have e36 : (-180 + 10 * ((36 : ℕ) : K)) = 180 := by push_cast; norm_num
  rw [e36] at hj36 hs36
  exact ⟨fun i => ⟨declination_table_wrap i, inclination_table_wrap i, strength_table_wrap i⟩,
    get_table_data_antimeridian_of_wrap declination_table declination_table_wrap lat hlat,
    get_table_data_antimeridian_of_wrap inclination_table inclination_table_wrap lat hlat,
    get_table_data_antimeridian_of_wrap strength_table strength_table_wrap lat hlat,
    hj36, hs36⟩

theorem get_table_data_antimeridian_witness :
    ((-90 : ℚ) ≤ 47 ∧ (47 : ℚ) ≤ 90) ∧
      get_table_data (47 : ℚ) (-180) strength_table
        = get_table_data (47 : ℚ) 180 strength_table :=
  ⟨by norm_num, (get_table_data_antimeridian (47 : ℚ) (by norm_num)).2.2.2.1⟩

/-- When every sample of a table lies in `[a, b]` and `a ≤ 0 ≤ b`, every lookup
returns a value in `[a, b]`: a blend of samples inside the geodetic range, 0
outside. -/
theorem get_table_data_bounded (table : Table) (a b : ℤ) (ha : a ≤ 0) (hb : 0 ≤ b)
    (h : ∀ (i : Fin 13) (j : Fin 37), a ≤ table i j ∧ table i j ≤ b) (lat lon : K) :
    ∃ v : K, get_table_data lat lon table = some v ∧ (a : K) ≤ v ∧ v ≤ (b : K) := by
  by_cases hin : (-90 ≤ lat ∧ lat ≤ 90) ∧ (-180 ≤ lon ∧ lon ≤ 180)
  · have hr := min_lat_index_le lat
    have hc := min_lon_index_le lon
    have hg := get_table_data_in_range lat lon table hin.1 hin.2 rfl rfl
      (by omega : min_lat_index lat < 12) (by omega : min_lon_index lon < 36)
    have hbt := blend_between (lat_scale lat) (lon_scale lon)
      ((table ⟨min_lat_index lat, by omega⟩ ⟨min_lon_index lon, by omega⟩ : ℤ) : K)
      ((table ⟨min_lat_index lat, by omega⟩ ⟨min_lon_index lon + 1, by omega⟩ : ℤ) : K)
      ((table ⟨min_lat_index lat + 1, by omega⟩ ⟨min_lon_index lon + 1, by omega⟩ : ℤ) : K)
      ((table ⟨min_lat_index lat + 1, by omega⟩ ⟨min_lon_index lon, by omega⟩ : ℤ) : K)
      (lat_scale_mem lat) (lon_scale_mem lon)
    have lo : ∀ (i : Fin 13) (j : Fin 37), (a : K) ≤ ((table i j : ℤ) : K) :=
      fun i j => Int.cast_le.mpr (h i j).1
    have hi : ∀ (i : Fin 13) (j : Fin 37), ((table i j : ℤ) : K) ≤ (b : K) :=
      fun i j => Int.cast_le.mpr (h i j).2
    refine ⟨_, hg, le_trans ?_ hbt.1, le_trans hbt.2 ?_⟩
    · exact le_min (le_min (lo _ _) (lo _ _)) (le_min (lo _ _) (lo _ _))
    · exact max_le (max_le (hi _ _) (hi _ _)) (max_le (hi _ _) (hi _ _))
  · refine ⟨0, get_table_data_zero_fallback lat lon table ?_, ?_, ?_⟩
    · by_contra hc
      push_neg at hc
      exact hin ⟨⟨hc.1, hc.2.1⟩, hc.2.2.1, hc.2.2.2⟩
    · exact_mod_cast ha
    · exact_mod_cast hb

theorem inclination_table_range :
    ∀ (i : Fin 13) (j : Fin 37), -87 ≤ inclination_table i j ∧ inclination_table i j ≤ 81 := by
  decide

/-- The interpolated inclination lies in `[-87, 81]` degrees. -/
theorem get_mag_inclination_range (lat lon : K) :
    ∃ v : K, get_mag_inclination lat lon = some v ∧ -87 ≤ v ∧ v ≤ 81 := by
  obtain ⟨v, hv, h1, h2⟩ := get_table_data_bounded inclination_table (-87) 81 (by decide)
    (by decide) inclination_table_range lat lon
  refine ⟨v, hv, ?_, ?_⟩
  · have e : (((-87 : ℤ) : ℤ) : K) = -87 := by push_cast; rfl
    rw [← e]; exact h1
  · have e : (((81 : ℤ) : ℤ) : K) = 81 := by push_cast; rfl
    rw [← e]; exact h2

end TableFacts

/-! ## The Earth-frame vector over the reals -/

section RealField

/-- For an inclination in `[-87, 81]` degrees the cosine of the angle in radians is
positive. -/
theorem cos_deg_pos {v : ℝ} (h1 : -87 ≤ v) (h2 : v ≤ 81) : 0 < Real.cos (v * Real.pi / 180) := by
  have hpi := Real.pi_pos
  apply Real.cos_pos_of_mem_Ioo
  constructor
  · nlinarith
  · nlinarith

/-- C14. The `tan(inclination)` singularity is unreachable: the samples of
`inclination_table` lie in `[-87, 81]` with both ends attained, so for every
`(lat, lon)` the value of `get_mag_inclination` lies in `[-87, 81]` degrees (0 on the
out-of-range fallback), is never 90 or -90, and, with the real cosine and the
standard `deg2rad`, the `cos(inclination_rad)` of `calc_mag_field` is strictly
positive. -/
theorem inclination_never_vertical {K : Type} [LinearOrderedField K] [FloorRing K] :
    (∀ (i : Fin 13) (j : Fin 37), -87 ≤ inclination_table i j ∧ inclination_table i j ≤ 81) ∧
    (inclination_table 0 31 = -87 ∧ inclination_table 12 8 = 81) ∧
    (∀ lat lon : K, ∃ v : K, get_mag_inclination lat lon = some v ∧ -87 ≤ v ∧ v ≤ 81) ∧
    (∀ m : MathLib ℝ, IsRealMathLib m → ∀ lat lon : ℝ, ∃ v : ℝ,
      get_mag_inclination lat lon = some v ∧ v ≠ 90 ∧ v ≠ -90 ∧
        0 < m.cos (m.deg2rad v)) := by
  refine ⟨inclination_table_range, by decide, get_mag_inclination_range, ?_⟩
  intro m hm lat lon
  obtain ⟨v, hv, h1, h2⟩ := get_mag_inclination_range lat lon
  obtain ⟨-, hcos, -, -, hdeg⟩ := hm
  refine ⟨v, hv, by linarith, by linarith, ?_⟩
  rw [hcos, hdeg]
  exact cos_deg_pos h1 h2

theorem inclination_never_vertical_witness :
    IsRealMathLib ⟨Real.pi, Real.cos, Real.sin, Real.tan, fun x => x * Real.pi / 180⟩ ∧
      ∃ v : ℝ, get_mag_inclination (47 : ℝ) 8 = some v ∧ v ≠ 90 ∧ v ≠ -90 ∧
        0 < Real.cos (v * Real.pi / 180) :=
  ⟨⟨rfl, rfl, rfl, rfl, fun _ => rfl⟩,
    (inclination_never_vertical (K := ℚ)).2.2.2
      ⟨Real.pi, Real.cos, Real.sin, Real.tan, fun x => x * Real.pi / 180⟩
      ⟨rfl, rfl, rfl, rfl, fun _ => rfl⟩ 47 8⟩

/-- Over the reals, for an inclination in `[-87, 81]` degrees: the components of
`mag_e`, the sum of their squares and the vertical component. -/
theorem mag_e_identities (m : MathLib ℝ) (hm : IsRealMathLib m) (d i s : ℝ) (h1 : -87 ≤ i)
    (h2 : i ≤ 81) :
    mag_e m d i s = ![0.01 * s * Real.cos (i * Real.pi / 180) * Real.cos (d * Real.pi / 180),
        0.01 * s * Real.cos (i * Real.pi / 180) * Real.sin (d * Real.pi / 180),
        0.01 * s * Real.cos (i * Real.pi / 180) * Real.tan (i * Real.pi / 180)] ∧
      mag_e m d i s 0 ^ 2 + mag_e m d i s 1 ^ 2 + mag_e m d i s 2 ^ 2 = (0.01 * s) ^ 2 ∧
      mag_e m d i s 2 = 0.01 * s * Real.sin (i * Real.pi / 180) := by
  obtain ⟨-, hcos, hsin, htan, hdeg⟩ := hm
  have hc := cos_deg_pos h1 h2
  have hE : mag_e m d i s
      = ![0.01 * s * Real.cos (i * Real.pi / 180) * Real.cos (d * Real.pi / 180),
        0.01 * s * Real.cos (i * Real.pi / 180) * Real.sin (d * Real.pi / 180),
        0.01 * s * Real.cos (i * Real.pi / 180) * Real.tan (i * Real.pi / 180)] := by
    simp only [mag_e, hcos, hsin, htan, hdeg]
  have h3 : 0.01 * s * Real.cos (i * Real.pi / 180) * Real.tan (i * Real.pi / 180)
      = 0.01 * s * Real.sin (i * Real.pi / 180) := by
    rw [Real.tan_eq_sin_div_cos]
    field_simp
    ring
  have hD := Real.cos_sq_add_sin_sq (d * Real.pi / 180)
  have hI := Real.cos_sq_add_sin_sq (i * Real.pi / 180)
  refine ⟨hE, ?_, ?_⟩
  · rw [hE]
    simp only [Matrix.cons_val_zero, Matrix.cons_val_one, Matrix.head_cons, Matrix.cons_val_two,
      Matrix.tail_cons]
    rw [h3]
    linear_combination ((0.01 * s) ^ 2 * Real.cos (i * Real.pi / 180) ^ 2) * hD
      + (0.01 * s) ^ 2 * hI
  · rw [hE]
    simp only [Matrix.cons_val_two, Matrix.tail_cons, Matrix.head_cons]
    exact h3

/-- C15. Over the reals, with the real `cos`, `sin`, `tan` and the standard
`deg2rad`: for every `(lat, lon)` the three lookups return values `d`, `i`, `s`, and
with `S = 0.01 * s` the vector `mag_e = (H cos D, H sin D, H tan I)` built from them
satisfies `mag_e[0]^2 + mag_e[1]^2 + mag_e[2]^2 = S^2` and `mag_e[2] = S * sin I`;
`calc_mag_field` rotates the vector built from the lookups at the coordinates
narrowed to `float`, for which the same two identities hold. -/
theorem mag_e_magnitude_is_strength (m : MathLib ℝ) (hm : IsRealMathLib m) (lat lon : ℝ)
    (dcm_be : Fin 3 → Fin 3 → ℝ) :
    (∃ d i s : ℝ,
      get_mag_declination lat lon = some d ∧ get_mag_inclination lat lon = some i ∧
      get_mag_strength lat lon = some s ∧
      mag_e m d i s = ![0.01 * s * Real.cos (i * Real.pi / 180) * Real.cos (d * Real.pi / 180),
        0.01 * s * Real.cos (i * Real.pi / 180) * Real.sin (d * Real.pi / 180),
        0.01 * s * Real.cos (i * Real.pi / 180) * Real.tan (i * Real.pi / 180)] ∧
      mag_e m d i s 0 ^ 2 + mag_e m d i s 1 ^ 2 + mag_e m d i s 2 ^ 2 = (0.01 * s) ^ 2 ∧
      mag_e m d i s 2 = 0.01 * s * Real.sin (i * Real.pi / 180)) ∧
    (∃ d i s : ℝ,
      get_mag_declination (double_to_float lat) (double_to_float lon) = some d ∧
      get_mag_inclination (double_to_float lat) (double_to_float lon) = some i ∧
      get_mag_strength (double_to_float lat) (double_to_float lon) = some s ∧
      calc_mag_field m lat lon dcm_be
        = some (earth_to_body_rotation dcm_be (mag_e m d i s)) ∧
      mag_e m d i s = ![0.01 * s * Real.cos (i * Real.pi / 180) * Real.cos (d * Real.pi / 180),
        0.01 * s * Real.cos (i * Real.pi / 180) * Real.sin (d * Real.pi / 180),
        0.01 * s * Real.cos (i * Real.pi / 180) * Real.tan (i * Real.pi / 180)] ∧
      mag_e m d i s 0 ^ 2 + mag_e m d i s 1 ^ 2 + mag_e m d i s 2 ^ 2 = (0.01 * s) ^ 2 ∧
      mag_e m d i s 2 = 0.01 * s * Real.sin (i * Real.pi / 180)) := by
  constructor
  · obtain ⟨d, hd⟩ := get_table_data_returns lat lon declination_table
    obtain ⟨i, hi, h1, h2⟩ := get_mag_inclination_range lat lon
    obtain ⟨s, hs⟩ := get_table_data_returns lat lon strength_table
    obtain ⟨hE, hn, hz⟩ := mag_e_identities m hm d i s h1 h2
    exact ⟨d, i, s, hd, hi, hs, hE, hn, hz⟩
  · obtain ⟨d, hd0⟩ := get_table_data_returns (double_to_float lat) (double_to_float lon)
      declination_table
    obtain ⟨i, hi, h1, h2⟩ := get_mag_inclination_range (double_to_float lat)
      (double_to_float lon)
    obtain ⟨s, hs0⟩ := get_table_data_returns (double_to_float lat) (double_to_float lon)
      strength_table
    have hd : get_mag_declination (double_to_float lat) (double_to_float lon) = some d := hd0
    have hs : get_mag_strength (double_to_float lat) (double_to_float lon) = some s := hs0
    obtain ⟨hE, hn, hz⟩ := mag_e_identities m hm d i s h1 h2
    refine ⟨d, i, s, hd, hi, hs, ?_, hE, hn, hz⟩
    unfold calc_mag_field
    rw [hd, hi, hs]

theorem mag_e_magnitude_is_strength_witness :
    IsRealMathLib ⟨Real.pi, Real.cos, Real.sin, Real.tan, fun x => x * Real.pi / 180⟩ ∧
      ∃ d i s : ℝ, get_mag_declination (HOME_LAT : ℝ) HOME_LON = some d ∧
        get_mag_inclination (HOME_LAT : ℝ) HOME_LON = some i ∧
        get_mag_strength (HOME_LAT : ℝ) HOME_LON = some s ∧
        mag_e ⟨Real.pi, Real.cos, Real.sin, Real.tan, fun x => x * Real.pi / 180⟩ d i s 0 ^ 2
          + mag_e ⟨Real.pi, Real.cos, Real.sin, Real.tan, fun x => x * Real.pi / 180⟩ d i s 1 ^ 2
          + mag_e ⟨Real.pi, Real.cos, Real.sin, Real.tan, fun x => x * Real.pi / 180⟩ d i s 2 ^ 2
          = (0.01 * s) ^ 2 := by
  obtain ⟨⟨d, i, s, hd, hi, hs, -, hn, -⟩, -⟩ := mag_e_magnitude_is_strength
    ⟨Real.pi, Real.cos, Real.sin, Real.tan, fun x => x * Real.pi / 180⟩
    ⟨rfl, rfl, rfl, rfl, fun _ => rfl⟩ HOME_LAT HOME_LON
    ![![1, 0, 0], ![0, 1, 0], ![0, 0, 1]]
  exact ⟨⟨rfl, rfl, rfl, rfl, fun _ => rfl⟩, d, i, s, hd, hi, hs, hn⟩

/-- C7, the claim as stated fails just outside the range: the `double` latitude
`90 + 2 ^ (-20)` is above 90, it narrows to the `float` 90, the three lookups at
`(90, 0)` return -1, 73 and 51, and `calc_mag_field` with the identity DCM does not
produce the zero vector (its third component is `0.51 * sin 73°`). -/
theorem calc_mag_field_nonzero_above_ninety :
    (90 + 1 / 2 ^ 20 : ℝ) > 90 ∧
    double_to_float (90 + 1 / 2 ^ 20 : ℝ) = 90 ∧ double_to_float (0 : ℝ) = 0 ∧
    get_mag_declination (90 : ℝ) 0 = some (-1) ∧
    get_mag_inclination (90 : ℝ) 0 = some 73 ∧
    get_mag_strength (90 : ℝ) 0 = some 51 ∧
    calc_mag_field ⟨Real.pi, Real.cos, Real.sin, Real.tan, fun x => x * Real.pi / 180⟩
      (90 + 1 / 2 ^ 20 : ℝ) 0 ![![1, 0, 0], ![0, 1, 0], ![0, 0, 1]] ≠ some ![0, 0, 0] := by
  have hd : get_mag_declination (90 : ℝ) 0 = some (-1) := by
    unfold get_mag_declination
    rw [get_table_data_ninety_zero]
    have : declination_table ⟨12, by decide⟩ ⟨18, by decide⟩ = -1 := by decide
    rw [this]
    norm_num
  have hi : get_mag_inclination (90 : ℝ) 0 = some 73 := by
    unfold get_mag_inclination
    rw [get_table_data_ninety_zero]
    have : inclination_table ⟨12, by decide⟩ ⟨18, by decide⟩ = 73 := by decide
    rw [this]
    norm_num
  have hs : get_mag_strength (90 : ℝ) 0 = some 51 := by
    unfold get_mag_strength
    rw [get_table_data_ninety_zero]
    have : strength_table ⟨12, by decide⟩ ⟨18, by decide⟩ = 51 := by decide
    rw [this]
    norm_num
  refine ⟨by norm_num, double_to_float_above_ninety, double_to_float_zero, hd, hi, hs, ?_⟩
  intro hzero
  unfold calc_mag_field at hzero
  rw [double_to_float_above_ninety, double_to_float_zero, hd, hi, hs] at hzero
  simp only [Option.some.injEq] at hzero
  have h2 := congrFun hzero 2
  have hz := (mag_e_identities
    ⟨Real.pi, Real.cos, Real.sin, Real.tan, fun x => x * Real.pi / 180⟩
    ⟨rfl, rfl, rfl, rfl, fun _ => rfl⟩ (-1) 73 51 (by norm_num) (by norm_num)).2.2
  simp only [earth_to_body_rotation, Matrix.cons_val_zero, Matrix.cons_val_one,
    Matrix.head_cons, Matrix.cons_val_two, Matrix.tail_cons, zero_mul, one_mul, zero_add] at h2
  rw [hz] at h2
  have hpi := Real.pi_pos
  have hsin : 0 < Real.sin (73 * Real.pi / 180) :=
    Real.sin_pos_of_pos_of_lt_pi (by positivity) (by nlinarith)
  nlinarith

end RealField

end SensorsModel
